import Mathlib

/-!
# Alan's Psychedelic Breakfast: the audio-to-events pipeline of visualizer.cpp

A shallow embedding of `displayFunc` (the windowing of the capture buffer, the
pulse scheduler and the spectrum history) and of the audio callback `callme`
(visualizer.cpp), together with the properties proved about them.

Modelling conventions.

* C `float`/`double` values are rationals (`ℚ`).  The values a trigger stores
  in the `float` fields of a pulse are rounded as the source rounds them
  (`toDouble`, `toFloat`: IEEE 754, round to nearest, ties to even).  The
  arithmetic of the per-frame updates and of the windowing is taken exactly.
* C arrays are lists: `a[i]` is the `i`-th element, and an assignment to a
  field of `a[i]` replaces that element.  The spectrum `cbuf` of a frame, which
  the modelled code only reads, is a map from the bin index to the bin.
* The `int` counters and indices of the source never leave `[0, 400)`, so they
  are natural numbers.
* `cmp_abs` (a macro of chuck_fft.h) and `rand` (libc) are not part of the
  translation unit; they are parameters, bundled in `Env`.  `rand k` is the
  value returned by the `k`-th call that the pulse code makes.  `rfft`
  (chuck_fft) is a parameter of `displayFuncFull`.
* The fields `randCalls`, `bassTriggers`, `midTriggers` of `State` are ghost
  counters: they record how often the source executed `rand()` in a trigger
  and how often it entered the body of `if (g_bassPulseCounter == 0)`
  (`if (g_midPulseCounter == 0)`).  No definition reads them except to
  number the calls of `rand`.
-/

namespace Visualizer

/-! ## Data model -/

/-- One frequency-domain bin (re, im), the `complex` of chuck_fft.h. -/
structure complex where
  re : ℚ
  im : ℚ
deriving DecidableEq

/-- The struct `Colorf` (lines 84-88). -/
structure Colorf where
  red : ℚ
  blue : ℚ
  green : ℚ
deriving DecidableEq

/-- The struct `SoundPulse` (lines 90-96); `on_` is its field `on`, a reserved
word here. -/
structure SoundPulse where
  on_ : Bool
  rad : ℚ
  col : Colorf
  lineWidth : ℚ
  transZ : ℚ
deriving DecidableEq

/-- Capacity of the spectrum history (line 65). -/
def MAX_STATES : Nat := 61

/-- Capacity of the bass pool (line 112). -/
def MAX_BASS_PULSES : Nat := 40

/-- Stagger period of the bass counter (line 116). -/
def BASS_PULSE_STAGGER : Nat := 200

/-- Capacity of the mid pool (line 119). -/
def MAX_MID_PULSES : Nat := 50

/-- Stagger period of the mid counter (line 123). -/
def MID_PULSE_STAGGER : Nat := 400

/-- The two external functions the pulse code calls: the magnitude `cmp_abs`
of a bin and the successive results of `rand()`. -/
structure Env where
  cmp_abs : complex → ℚ
  rand : Nat → Nat

/-- What one call of `displayFunc` reads besides the pulse state: the spectrum
`cbuf` produced by `rfft` and the value of `g_rad` at the bass scan. -/
structure Frame where
  cbuf : Nat → complex
  g_rad : ℚ

/-- The globals of visualizer.cpp that the pulse scheduler and the spectrum
history read or write, and three ghost counters. -/
structure State where
  g_windowSize : Nat
  g_toggleBassPulses : Bool
  g_toggleMidPulses : Bool
  g_toggleFDWaveform : Bool
  g_bassPulses : List SoundPulse
  g_bassPulseCounter : Nat
  g_bassPulseIndex : Nat
  g_midPulses : List SoundPulse
  g_midPulseCounter : Nat
  g_midPulseIndex : Nat
  g_FDBufHistory : List (List complex)
  g_nHistoryStates : Nat
  randCalls : Nat
  bassTriggers : Nat
  midTriggers : Nat
deriving DecidableEq

/-- The value every pool slot receives in `main` (lines 224-242). -/
def defaultPulse : SoundPulse :=
  { on_ := false, rad := 0, col := { red := 0.5, green := 0.5, blue := 1.0 },
    lineWidth := 0, transZ := 0 }

/-- The state `main` leaves behind for a frame size of `bufferFrames`
samples (lines 65-124 and 208-250). -/
def initState (bufferFrames : Nat) : State :=
  { g_windowSize := bufferFrames
    g_toggleBassPulses := true
    g_toggleMidPulses := true
    g_toggleFDWaveform := true
    g_bassPulses := List.replicate MAX_BASS_PULSES defaultPulse
    g_bassPulseCounter := 0
    g_bassPulseIndex := 0
    g_midPulses := List.replicate MAX_MID_PULSES defaultPulse
    g_midPulseCounter := 0
    g_midPulseIndex := 0
    g_FDBufHistory :=
      List.replicate MAX_STATES (List.replicate (bufferFrames / 2) { re := 0, im := 0 })
    g_nHistoryStates := 0
    randCalls := 0
    bassTriggers := 0
    midTriggers := 0 }

/-! ## Rounding to single and double precision -/

/-- The integer nearest to `a / b`, the even one of the two when `a / b` lies
half-way between two integers. -/
def divRoundEven (a b : Nat) : Nat :=
  if 2 * (a % b) < b then a / b
  else if b < 2 * (a % b) then a / b + 1
  else if (a / b) % 2 = 0 then a / b
  else a / b + 1

/-- The number of halvings that bring `n` below 2; the first argument bounds
the number of halvings. -/
def log2Loop : Nat → Nat → Nat
  | 0, _ => 0
  | fuel + 1, n => if 2 ≤ n then log2Loop fuel (n / 2) + 1 else 0

/-- The binary exponent of `a / b`, for positive `a` and `b`: the integer `e`
with `2 ^ e ≤ a / b < 2 ^ (e + 1)`. -/
def binade (a b : Nat) : Int :=
  let d : Int := (log2Loop a a : Int) - (log2Loop b b : Int)
  if b * 2 ^ d.toNat ≤ a * 2 ^ (-d).toNat then d else d - 1

/-- The value of an IEEE 754 binary format with `p` significant bits and least
normal exponent `emin` that is nearest to `q`, ties to the even significand
(the rounding of C on the usual platforms).  Overflow is left out: no value of
the modelled code comes near the largest finite number. -/
def roundBinary (p : Nat) (emin : Int) (q : ℚ) : ℚ :=
  if q = 0 then 0
  else
    let a := q.num.natAbs
    let b := q.den
    let k : Int := max (binade a b) emin - ((p : Int) - 1)
    let m := divRoundEven (a * 2 ^ (-k).toNat) (b * 2 ^ k.toNat)
    let v : ℚ := ((m * 2 ^ k.toNat : Nat) : ℚ) / ((2 ^ (-k).toNat : Nat) : ℚ)
    if q < 0 then -v else v

/-- The `double` nearest to `q`: a decimal constant of the source, or the
result of one operation on `double` operands. -/
def toDouble (q : ℚ) : ℚ := roundBinary 53 (-1022) q

/-- The `float` nearest to `q`: the value stored when a `double` is assigned
to a `float` field. -/
def toFloat (q : ℚ) : ℚ := roundBinary 24 (-126) q

/-! ## Triggers -/

/-- The assignments of lines 760-766; `r1`, `r2`, `r3` are the results of the
three calls of `rand()`, in the order of the source (green, blue, red).  The
right-hand sides of the colours and of `transZ` are `double` expressions
(`rand() % 30` is an `int`, `100.00` and the offsets are `double` constants)
and the fields are `float`: every operation rounds to `double` and the
assignment rounds to `float`.  `g_rad * 2` is the product of a `float` by 2
and `30.0` is representable in a `float`: nothing is rounded there. -/
def initBassPulse (g_rad : ℚ) (r1 r2 r3 : Nat) (p : SoundPulse) : SoundPulse :=
  { p with
    on_ := true
    rad := g_rad * 2
    col := { green :=
               toFloat (toDouble (toDouble (((r1 % 30 : Nat) : ℚ) / 100.00) + toDouble 0.2))
             blue :=
               toFloat (toDouble (toDouble (((r2 % 10 : Nat) : ℚ) / 100.00) + toDouble 0.9))
             red :=
               toFloat (toDouble (toDouble (((r3 % 30 : Nat) : ℚ) / 100.00) + toDouble 0.3)) }
    lineWidth := 30.0
    transZ := toFloat (-(toDouble 0.0000000001)) }

/-- The assignments of lines 812-818; `r1`, `r2`, `r3` are the results of the
three calls of `rand()`, in the order of the source (green, red, blue).  The
colours are rounded as in `initBassPulse`; `0.25`, `5.0` and the zero of
`transZ` are representable in a `float`. -/
def initMidPulse (r1 r2 r3 : Nat) (p : SoundPulse) : SoundPulse :=
  { p with
    on_ := true
    rad := 0.25
    col := { green :=
               toFloat (toDouble (toDouble (((r1 % 30 : Nat) : ℚ) / 100.00) + toDouble 0.2))
             red :=
               toFloat (toDouble (toDouble (((r2 % 10 : Nat) : ℚ) / 100.00) + toDouble 0.9))
             blue :=
               toFloat (toDouble (toDouble (((r3 % 30 : Nat) : ℚ) / 100.00) + toDouble 0.3)) }
    lineWidth := 5.0
    transZ := -0.000000000000 }

/-- The loop `for (j = idx; j != last; j = (j + 1) % cap) if (j == idx) ...`
of lines 757-768 and 809-820.  The first argument bounds the number of times
the loop condition is tested; `none` means the bound was not enough. -/
def pulseInitLoop (cap idx last : Nat) (init : SoundPulse → SoundPulse) :
    Nat → Nat → List SoundPulse → Option (List SoundPulse)
  | 0, _, _ => none
  | fuel + 1, j, ps =>
    if j = last then some ps
    else pulseInitLoop cap idx last init fuel ((j + 1) % cap)
      (if j = idx then ps.modify init j else ps)

/-- The body of `if (g_bassPulseCounter == 0)` (lines 755-769). -/
def bassTrigger (env : Env) (g_rad : ℚ) (s : State) : Option State :=
  let g_bassPulseLastIndex :=
    (if s.g_bassPulseIndex = 0 then MAX_BASS_PULSES else s.g_bassPulseIndex) - 1
  match pulseInitLoop MAX_BASS_PULSES s.g_bassPulseIndex g_bassPulseLastIndex
      (initBassPulse g_rad (env.rand s.randCalls) (env.rand (s.randCalls + 1))
        (env.rand (s.randCalls + 2)))
      MAX_BASS_PULSES s.g_bassPulseIndex s.g_bassPulses with
  | none => none
  | some ps =>
    some { s with
      g_bassPulses := ps
      g_bassPulseIndex := (s.g_bassPulseIndex + 1) % MAX_BASS_PULSES
      randCalls := s.randCalls + 3
      bassTriggers := s.bassTriggers + 1 }

/-- The body of `if (g_midPulseCounter == 0)` (lines 808-821). -/
def midTrigger (env : Env) (s : State) : Option State :=
  let g_midPulseLastIndex :=
    (if s.g_midPulseIndex = 0 then MAX_MID_PULSES else s.g_midPulseIndex) - 1
  match pulseInitLoop MAX_MID_PULSES s.g_midPulseIndex g_midPulseLastIndex
      (initMidPulse (env.rand s.randCalls) (env.rand (s.randCalls + 1))
        (env.rand (s.randCalls + 2)))
      MAX_MID_PULSES s.g_midPulseIndex s.g_midPulses with
  | none => none
  | some ps =>
    some { s with
      g_midPulses := ps
      g_midPulseIndex := (s.g_midPulseIndex + 1) % MAX_MID_PULSES
      randCalls := s.randCalls + 3
      midTriggers := s.midTriggers + 1 }

/-! ## Band scans -/

/-- One iteration of the bass scan (lines 752-771) at bin `i`. -/
def bassCheckBin (env : Env) (f : Frame) (s : State) (i : Nat) : Option State :=
  if env.cmp_abs (f.cbuf i) > 0.001 then
    let s1 := { s with
      g_bassPulseCounter := (s.g_bassPulseCounter + 1) % BASS_PULSE_STAGGER }
    if s1.g_bassPulseCounter = 0 then bassTrigger env f.g_rad s1 else some s1
  else some s

/-- The bins the bass scan visits, in order: the loop header of line 751. -/
def bassBins (g_windowSize : Nat) : List Nat :=
  List.range (((g_windowSize / 2) / 100) * 4)

/-- The bass scan (lines 751-772). -/
def bassScan (env : Env) (f : Frame) (s : State) : Option State :=
  (bassBins s.g_windowSize).foldlM (bassCheckBin env f) s

/-- One iteration of the mid scan (lines 805-823) at bin `i`. -/
def midCheckBin (env : Env) (f : Frame) (s : State) (i : Nat) : Option State :=
  if env.cmp_abs (f.cbuf i) > 0.0004 then
    let s1 := { s with
      g_midPulseCounter := (s.g_midPulseCounter + 1) % MID_PULSE_STAGGER }
    if s1.g_midPulseCounter = 0 then midTrigger env s1 else some s1
  else some s

/-- The bins the mid scan visits, in order: the loop header of line 804. -/
def midBins (g_windowSize : Nat) : List Nat :=
  List.range' (1 + ((g_windowSize / 2) / 100) * 4)
    (((g_windowSize / 2) / 100) * 80 - (1 + ((g_windowSize / 2) / 100) * 4))

/-- The mid scan (lines 804-824). -/
def midScan (env : Env) (f : Frame) (s : State) : Option State :=
  (midBins s.g_windowSize).foldlM (midCheckBin env f) s

/-! ## Per-frame update of the pulses -/

/-- The update of one active bass pulse (lines 782-788). -/
def updateBassPulse (p : SoundPulse) : SoundPulse :=
  { p with
    rad := if p.rad < 10 then p.rad + 0.075 else p.rad
    col := { red := p.col.red - p.col.red * 0.005
             green := p.col.green - p.col.green * 0.005
             blue := p.col.blue - p.col.blue * 0.005 }
    lineWidth := p.lineWidth - 0.01
    transZ := p.transZ - 0.03 }

/-- The update of one active mid pulse (lines 833-839). -/
def updateMidPulse (p : SoundPulse) : SoundPulse :=
  { p with
    rad := if p.rad < 10 then p.rad + 0.075 else p.rad
    col := { red := p.col.red - p.col.red * 0.005
             green := p.col.green - p.col.green * 0.005
             blue := p.col.blue - p.col.blue * 0.005 }
    lineWidth := p.lineWidth - 0.01
    transZ := p.transZ - 0.04 }

/-- The loop `for (i = 0; i < cap; i++) if (pulses[i].on) ...` of lines
776-797 and 827-848, without the drawing calls. -/
def drawPulses (cap : Nat) (upd : SoundPulse → SoundPulse) (ps : List SoundPulse) :
    List SoundPulse :=
  (List.range cap).foldl
    (fun ps i =>
      match ps[i]? with
      | some p => if p.on_ then ps.modify upd i else ps
      | none => ps) ps

/-- The block `if (g_toggleBassPulses)` (lines 749-798). -/
def bassSection (env : Env) (f : Frame) (s : State) : Option State :=
  if s.g_toggleBassPulses then
    (bassScan env f s).map fun s1 =>
      { s1 with g_bassPulses := drawPulses MAX_BASS_PULSES updateBassPulse s1.g_bassPulses }
  else some s

/-- The block `if (g_toggleMidPulses)` (lines 802-849). -/
def midSection (env : Env) (f : Frame) (s : State) : Option State :=
  if s.g_toggleMidPulses then
    (midScan env f s).map fun s1 =>
      { s1 with g_midPulses := drawPulses MAX_MID_PULSES updateMidPulse s1.g_midPulses }
  else some s

/-! ## Spectrum history -/

/-- The call `memcpy(dst, src, sizeof(complex) * n)` on buffers of bins: the
first `n` bins of `dst` are replaced by the first `n` bins of `src`. -/
def memcpy (dst src : List complex) (n : Nat) : List complex :=
  src.take n ++ dst.drop n

/-- The loop `for (i = start; i > 0; i--) memcpy(h[i], h[i - 1], ...)` of lines
854-856, by recursion on the loop variable. -/
def shiftHistory (n : Nat) : Nat → List (List complex) → List (List complex)
  | 0, h => h
  | i + 1, h =>
    shiftHistory n i (h.set (i + 1) (memcpy (h.getD (i + 1) []) (h.getD i []) n))

/-- The statements of lines 854-860: shift the history, count the new entry,
store the first `g_windowSize / 2` bins of `cbuf` at index 0.
(`g_nHistoryStates` is 0 at first, where the source starts the loop at -1 and
the truncated subtraction starts it at 0: the loop body is not executed in
either case.) -/
def saveHistory (cbuf : Nat → complex) (s : State) : State :=
  let h := shiftHistory (s.g_windowSize / 2) (s.g_nHistoryStates - 1) s.g_FDBufHistory
  { s with
    g_nHistoryStates :=
      if s.g_nHistoryStates < MAX_STATES then s.g_nHistoryStates + 1
      else s.g_nHistoryStates
    g_FDBufHistory :=
      h.set 0 (memcpy (h.getD 0 []) ((List.range (s.g_windowSize / 2)).map cbuf)
        (s.g_windowSize / 2)) }

/-- The block `if (g_toggleFDWaveform)` (lines 851-913), without the drawing
calls. -/
def historySection (f : Frame) (s : State) : State :=
  if s.g_toggleFDWaveform then saveHistory f.cbuf s else s

/-! ## The frame step -/

/-- The part of `displayFunc` after the FFT (lines 748-913): bass block, mid
block, history block. -/
def displayFunc (env : Env) (s : State) (f : Frame) : Option State :=
  (bassSection env f s).bind fun s1 =>
    (midSection env f s1).map fun s2 => historySection f s2

/-- Consecutive calls of `displayFunc`, one per frame of the list. -/
def runFrames (env : Env) (s : State) (fs : List Frame) : Option State :=
  fs.foldlM (displayFunc env) s

/-- Consecutive pushes into the spectrum history, oldest spectrum first. -/
def pushAll (s : State) (cs : List (Nat → complex)) : State :=
  cs.foldl (fun s c => saveHistory c s) s

/-- The keys of `keyboardFunc` (lines 382-432) that change the modelled state:
b, m and 2 flip a toggle.  Every other key leaves the modelled globals as
they are (q leaves the program). -/
def keyboardFunc (key : Char) (s : State) : State :=
  if key = 'b' then { s with g_toggleBassPulses := !s.g_toggleBassPulses }
  else if key = 'm' then { s with g_toggleMidPulses := !s.g_toggleMidPulses }
  else if key = '2' then { s with g_toggleFDWaveform := !s.g_toggleFDWaveform }
  else s

/-- The states the program can be in, between two callbacks or inside the
scans of a frame step: the state after `main`, and every state reached from a
reachable one by one iteration of the bass or mid scan, by one of the two
update loops, by the history block or by a key press.  (The order the frame
step imposes on these steps is not recorded, so the set is an upper bound;
`reachable_displayFunc` shows that it is closed under whole frame steps.) -/
inductive Reachable (env : Env) : State → Prop
  | init (bufferFrames : Nat) : Reachable env (initState bufferFrames)
  | bassBin (s t : State) (f : Frame) (i : Nat) :
      Reachable env s → bassCheckBin env f s i = some t → Reachable env t
  | bassDraw (s : State) : Reachable env s →
      Reachable env { s with
        g_bassPulses := drawPulses MAX_BASS_PULSES updateBassPulse s.g_bassPulses }
  | midBin (s t : State) (f : Frame) (i : Nat) :
      Reachable env s → midCheckBin env f s i = some t → Reachable env t
  | midDraw (s : State) : Reachable env s →
      Reachable env { s with
        g_midPulses := drawPulses MAX_MID_PULSES updateMidPulse s.g_midPulses }
  | history (s : State) (f : Frame) : Reachable env s → Reachable env (historySection f s)
  | key (s : State) (k : Char) : Reachable env s → Reachable env (keyboardFunc k s)

/-- The pools have their declared size; the allocation indices point into
their pools and equal the number of triggers fired so far, modulo the
capacity. -/
structure Circular (s : State) : Prop where
  bassLt : s.g_bassPulseIndex < MAX_BASS_PULSES
  midLt : s.g_midPulseIndex < MAX_MID_PULSES
  bassLen : s.g_bassPulses.length = MAX_BASS_PULSES
  midLen : s.g_midPulses.length = MAX_MID_PULSES
  bassEq : s.g_bassPulseIndex = s.bassTriggers % MAX_BASS_PULSES
  midEq : s.g_midPulseIndex = s.midTriggers % MAX_MID_PULSES

/-! ## Definitions used in the proofs -/

/-- Whether the walk `j, (j + 1) % cap, ...` meets `last` within the given
number of tests and before it meets `idx`. -/
def reachesLast (cap idx last : Nat) : Nat → Nat → Bool
  | 0, _ => false
  | fuel + 1, j =>
    if j = last then true
    else if j = idx then false
    else reachesLast cap idx last fuel ((j + 1) % cap)

/-- The states the trigger loops can be started in: both pools have their
declared size and both allocation indices point into their pool. -/
structure WellFormed (s : State) : Prop where
  bassLt : s.g_bassPulseIndex < MAX_BASS_PULSES
  midLt : s.g_midPulseIndex < MAX_MID_PULSES
  bassLen : s.g_bassPulses.length = MAX_BASS_PULSES
  midLen : s.g_midPulses.length = MAX_MID_PULSES

/-- The state a bass trigger produces when the loop terminates. -/
def bassTriggerT (env : Env) (g_rad : ℚ) (s : State) : State :=
  { s with
    g_bassPulses := s.g_bassPulses.modify
      (initBassPulse g_rad (env.rand s.randCalls) (env.rand (s.randCalls + 1))
        (env.rand (s.randCalls + 2))) s.g_bassPulseIndex
    g_bassPulseIndex := (s.g_bassPulseIndex + 1) % MAX_BASS_PULSES
    randCalls := s.randCalls + 3
    bassTriggers := s.bassTriggers + 1 }

/-- The state a mid trigger produces when the loop terminates. -/
def midTriggerT (env : Env) (s : State) : State :=
  { s with
    g_midPulses := s.g_midPulses.modify
      (initMidPulse (env.rand s.randCalls) (env.rand (s.randCalls + 1))
        (env.rand (s.randCalls + 2))) s.g_midPulseIndex
    g_midPulseIndex := (s.g_midPulseIndex + 1) % MAX_MID_PULSES
    randCalls := s.randCalls + 3
    midTriggers := s.midTriggers + 1 }

/-- The result of `bassCheckBin` on a well-formed state. -/
def bassCheckBinT (env : Env) (f : Frame) (s : State) (i : Nat) : State :=
  if env.cmp_abs (f.cbuf i) > 0.001 then
    if (s.g_bassPulseCounter + 1) % BASS_PULSE_STAGGER = 0 then
      bassTriggerT env f.g_rad { s with
        g_bassPulseCounter := (s.g_bassPulseCounter + 1) % BASS_PULSE_STAGGER }
    else { s with g_bassPulseCounter := (s.g_bassPulseCounter + 1) % BASS_PULSE_STAGGER }
  else s

/-- The result of `midCheckBin` on a well-formed state. -/
def midCheckBinT (env : Env) (f : Frame) (s : State) (i : Nat) : State :=
  if env.cmp_abs (f.cbuf i) > 0.0004 then
    if (s.g_midPulseCounter + 1) % MID_PULSE_STAGGER = 0 then
      midTriggerT env { s with
        g_midPulseCounter := (s.g_midPulseCounter + 1) % MID_PULSE_STAGGER }
    else { s with g_midPulseCounter := (s.g_midPulseCounter + 1) % MID_PULSE_STAGGER }
  else s

/-- The result of `bassSection` on a well-formed state. -/
def bassSectionT (env : Env) (f : Frame) (s : State) : State :=
  if s.g_toggleBassPulses then
    { (bassBins s.g_windowSize).foldl (bassCheckBinT env f) s with
      g_bassPulses := drawPulses MAX_BASS_PULSES updateBassPulse
        ((bassBins s.g_windowSize).foldl (bassCheckBinT env f) s).g_bassPulses }
  else s

/-- The result of `midSection` on a well-formed state. -/
def midSectionT (env : Env) (f : Frame) (s : State) : State :=
  if s.g_toggleMidPulses then
    { (midBins s.g_windowSize).foldl (midCheckBinT env f) s with
      g_midPulses := drawPulses MAX_MID_PULSES updateMidPulse
        ((midBins s.g_windowSize).foldl (midCheckBinT env f) s).g_midPulses }
  else s

/-- The result of `displayFunc` on a well-formed state. -/
def displayFuncT (env : Env) (s : State) (f : Frame) : State :=
  historySection f (midSectionT env f (bassSectionT env f s))

/-- The fields the bass block never writes keep their values. -/
structure SameOutsideBass (s t : State) : Prop where
  windowSize : t.g_windowSize = s.g_windowSize
  toggleBass : t.g_toggleBassPulses = s.g_toggleBassPulses
  toggleMid : t.g_toggleMidPulses = s.g_toggleMidPulses
  toggleFD : t.g_toggleFDWaveform = s.g_toggleFDWaveform
  midPulses : t.g_midPulses = s.g_midPulses
  midCounter : t.g_midPulseCounter = s.g_midPulseCounter
  midIndex : t.g_midPulseIndex = s.g_midPulseIndex
  history : t.g_FDBufHistory = s.g_FDBufHistory
  nHistory : t.g_nHistoryStates = s.g_nHistoryStates
  midTriggers : t.midTriggers = s.midTriggers

/-- The fields the mid block never writes keep their values. -/
structure SameOutsideMid (s t : State) : Prop where
  windowSize : t.g_windowSize = s.g_windowSize
  toggleBass : t.g_toggleBassPulses = s.g_toggleBassPulses
  toggleMid : t.g_toggleMidPulses = s.g_toggleMidPulses
  toggleFD : t.g_toggleFDWaveform = s.g_toggleFDWaveform
  bassPulses : t.g_bassPulses = s.g_bassPulses
  bassCounter : t.g_bassPulseCounter = s.g_bassPulseCounter
  bassIndex : t.g_bassPulseIndex = s.g_bassPulseIndex
  history : t.g_FDBufHistory = s.g_FDBufHistory
  nHistory : t.g_nHistoryStates = s.g_nHistoryStates
  bassTriggers : t.bassTriggers = s.bassTriggers

/-- The fields the history block never writes keep their values. -/
structure SameOutsideHistory (s t : State) : Prop where
  windowSize : t.g_windowSize = s.g_windowSize
  toggleBass : t.g_toggleBassPulses = s.g_toggleBassPulses
  toggleMid : t.g_toggleMidPulses = s.g_toggleMidPulses
  toggleFD : t.g_toggleFDWaveform = s.g_toggleFDWaveform
  bassPulses : t.g_bassPulses = s.g_bassPulses
  bassCounter : t.g_bassPulseCounter = s.g_bassPulseCounter
  bassIndex : t.g_bassPulseIndex = s.g_bassPulseIndex
  midPulses : t.g_midPulses = s.g_midPulses
  midCounter : t.g_midPulseCounter = s.g_midPulseCounter
  midIndex : t.g_midPulseIndex = s.g_midPulseIndex
  randCalls : t.randCalls = s.randCalls
  bassTriggers : t.bassTriggers = s.bassTriggers
  midTriggers : t.midTriggers = s.midTriggers

/-- A sample environment: a magnitude that is exact on the bins with one zero
component, and a generator that returns 0, 1, 2, ... -/
def sampleEnv : Env :=
  { cmp_abs := fun c => |c.re| + |c.im|, rand := fun k => k }

/-- The sample environment with a generator that returns 0 at every call. -/
def zeroRandEnv : Env :=
  { cmp_abs := fun c => |c.re| + |c.im|, rand := fun _ => 0 }

/-- A frame whose bins all have magnitude 1, at the initial `g_rad`. -/
def loudFrame : Frame :=
  { cbuf := fun _ => { re := 1, im := 0 }, g_rad := 1.2 }

/-- A frame whose bins all have magnitude 0, at the initial `g_rad`. -/
def silentFrame : Frame :=
  { cbuf := fun _ => { re := 0, im := 0 }, g_rad := 1.2 }

/-- The bass side of a state in which `k` threshold crossings have been
counted and no bass trigger has fired yet. -/
structure QuietBass (s : State) (k : Nat) : Prop where
  windowSize : s.g_windowSize = 1024
  toggleBass : s.g_toggleBassPulses = true
  counter : s.g_bassPulseCounter = k
  triggers : s.bassTriggers = 0
  index : s.g_bassPulseIndex = 0
  pulses : s.g_bassPulses = List.replicate MAX_BASS_PULSES defaultPulse

/-- A frame with a single loud bass bin: bin 0 has magnitude 0.01 and no other
bin of the bass scan exceeds the bass threshold. -/
def OnlyBinZero (env : Env) (f : Frame) : Prop :=
  env.cmp_abs (f.cbuf 0) = 0.01 ∧
    ∀ i ∈ bassBins 1024, i ≠ 0 → env.cmp_abs (f.cbuf i) ≤ 0.001

/-- A frame whose bin 0 has magnitude 0.01 and whose other bins are silent. -/
def binZeroFrame : Frame :=
  { cbuf := fun i => if i = 0 then { re := 0.01, im := 0 } else { re := 0, im := 0 },
    g_rad := 1.2 }

/-- The run that leads to the second use of slot 0 of the bass pool: 409 loud
frames from the state after `main`, then the first 19 bins of the bass scan of
one more loud frame.  Forty bass triggers have fired by then, and the next
loud bin fires the forty-first. -/
def beforeReuse : Option State :=
  (runFrames sampleEnv (initState 1024) (List.replicate 409 loudFrame)).bind fun s =>
    ((bassBins 1024).take 19).foldlM (bassCheckBin sampleEnv loudFrame) s

/-! ## Sample buffers: the audio callback and the windowing -/

/-- The sample buffers of visualizer.cpp (lines 59-70): the capture buffer
`g_buffer` the audio callback fills, its size, the buffer `g_fftBuf` the FFT
works on, and the window coefficients `g_window` that `main` has `hanning`
compute (line 221). -/
structure Buffers where
  g_buffer : List ℚ
  g_bufferSize : Nat
  g_fftBuf : List ℚ
  g_window : List ℚ
deriving DecidableEq

/-- All modelled globals: the sample buffers, and the globals of the pulse
scheduler and of the spectrum history (among them `g_windowSize`). -/
structure Globals where
  buffers : Buffers
  pipeline : State
deriving DecidableEq

/-- What `callme` leaves behind: the globals, the output buffer and the
returned value. -/
structure CallmeResult where
  globals : Globals
  outputBuffer : List ℚ
  ret : Int
deriving DecidableEq

/-- The audio callback `callme` (lines 131-148).  `inputBuffer` is only read
and is a map from the sample index to the sample; the arguments `streamTime`,
`status` and `data`, which the body does not use, are left out. -/
def callme (g : Globals) (outputBuffer : List ℚ) (inputBuffer : Nat → ℚ)
    (numFrames : Nat) : CallmeResult :=
  let filled := (List.range numFrames).foldl
    (fun (acc : List ℚ × List ℚ) i => (acc.1.set i (inputBuffer i), acc.2.set i 0))
    (g.buffers.g_buffer, outputBuffer)
  { globals := { g with buffers := { g.buffers with g_buffer := filled.1 } }
    outputBuffer := filled.2
    ret := 0 }

/-- Modelled from the spec: `apply_window` of chuck_fft, which is not part of
the translation unit, "multiplies each sample in place by the corresponding
coefficient"; the first `length` samples are treated. -/
def apply_window (data window : List ℚ) (length : Nat) : List ℚ :=
  List.zipWith (fun x w => x * w) (data.take length) (window.take length) ++
    data.drop length

/-- The two statements of `displayFunc` that write the sample buffers before
the FFT: the call `apply_window(g_buffer, g_window, g_windowSize)` (line 601
when the time-domain waveform is drawn, line 737 when it is not) and the copy
`memcpy(g_fftBuf, g_buffer, sizeof(SAMPLE) * g_bufferSize)` of line 741.  The
rest of the frame step follows in `displayFuncFull`. -/
def windowAndCopy (g : Globals) : Globals :=
  let windowed :=
    apply_window g.buffers.g_buffer g.buffers.g_window g.pipeline.g_windowSize
  { g with buffers := { g.buffers with
      g_buffer := windowed
      g_fftBuf := windowed.take g.buffers.g_bufferSize ++
        g.buffers.g_fftBuf.drop g.buffers.g_bufferSize } }

/-- The cast `complex * cbuf = (complex *)g_fftBuf` of line 746: bin `i` is
made of the samples `2 i` and `2 i + 1` of the buffer. -/
def cbufOf (g_fftBuf : List ℚ) : Nat → complex :=
  fun i => { re := g_fftBuf.getD (2 * i) 0, im := g_fftBuf.getD (2 * i + 1) 0 }

/-- One call of `displayFunc` on all modelled globals (lines 514-913, without
the drawing calls): the capture buffer is windowed (line 601 or 737) and
copied to `g_fftBuf` (line 741), `rfft` transforms `g_fftBuf` in place (line
744), and the bass block, the mid block and the history block run on the
spectrum `cbuf` that the cast of line 746 reads from `g_fftBuf`.  `rfft`
(chuck_fft) is not part of the translation unit and is a parameter: the
content it leaves in the buffer it is given, for its second argument.
`g_rad` is the value of the global `g_rad` at the bass scan, which lines
584-592 compute with `pow`. -/
def displayFuncFull (env : Env) (rfft : List ℚ → Nat → List ℚ) (g_rad : ℚ)
    (g : Globals) : Option Globals :=
  let g1 := windowAndCopy g
  let g_fftBuf := rfft g1.buffers.g_fftBuf (g1.pipeline.g_windowSize / 2)
  (displayFunc env g1.pipeline { cbuf := cbufOf g_fftBuf, g_rad := g_rad }).map fun s =>
    { buffers := { g1.buffers with g_fftBuf := g_fftBuf }, pipeline := s }

/-- The globals `main` leaves behind (lines 208-250) for a frame size of
`bufferFrames` samples, `window` being the coefficients `hanning` computed. -/
def initGlobals (bufferFrames : Nat) (window : List ℚ) : Globals :=
  { buffers :=
      { g_buffer := List.replicate bufferFrames 0
        g_bufferSize := bufferFrames
        g_fftBuf := List.replicate bufferFrames 0
        g_window := window }
    pipeline := initState bufferFrames }

/-- The sample buffers have the size `main` allocated: `g_bufferSize` samples
each, which is also the window size. -/
structure BuffersSized (g : Globals) : Prop where
  buffer : g.buffers.g_buffer.length = g.buffers.g_bufferSize
  fftBuf : g.buffers.g_fftBuf.length = g.buffers.g_bufferSize
  window : g.buffers.g_window.length = g.buffers.g_bufferSize
  windowSize : g.pipeline.g_windowSize = g.buffers.g_bufferSize

/-- Modelled from the spec: the coefficients `hanning` (chuck_fft, not part of
the translation unit) computes for four samples, "0.5 * (1 - cos(2π·i/(N-1)))"
for i = 0, 1, 2, 3; they are rational. -/
def hanningFour : List ℚ := [0, 0.75, 0.75, 0]

/-- The globals after `main` for a frame size of four samples, once the audio
callback has delivered the frame 1, 1, 1, 1. -/
def constantFrameGlobals : Globals :=
  (callme (initGlobals 4 hanningFour) [0, 0, 0, 0] (fun _ => 1) 4).globals

/-! ## The content of the spectrum history -/

/-- The first `n` bins of a spectrum, as `saveHistory` stores them at index 0. -/
def storedSpectrum (n : Nat) (c : Nat → complex) : List complex :=
  (List.range n).map c

/-- The entry of `n` zero bins that `main` stores at every index of the
history (line 249). -/
def zeroSpectrum (n : Nat) : List complex :=
  List.replicate n { re := 0, im := 0 }

/-- The entry at index `k` of the history after the spectra `cs` (oldest
first) were pushed into the fresh history: the spectrum pushed `k` pushes
before the last one when `k` is 0 or at most `cs.length - 2`, and the zero
entry of `main` otherwise. -/
def historyEntry (n : Nat) (cs : List (Nat → complex)) (k : Nat) : List complex :=
  if k = 0 ∨ k + 2 ≤ cs.length then
    match cs.reverse[k]? with
    | some c => storedSpectrum n c
    | none => zeroSpectrum n
  else zeroSpectrum n

/-- The spectrum whose bins all are (i + 1, 0). -/
def constantSpectrum (i : Nat) : Nat → complex :=
  fun _ => { re := (i : ℚ) + 1, im := 0 }

/-! ## The trigger loop -/

theorem pulseInitLoop_skip (cap idx last : Nat) (init : SoundPulse → SoundPulse) :
    ∀ (fuel j : Nat) (ps : List SoundPulse), reachesLast cap idx last fuel j = true →
      pulseInitLoop cap idx last init fuel j ps = some ps := by
  intro fuel
  induction fuel with
  | zero => intro j ps h; simp [reachesLast] at h
  | succ n ih =>
    intro j ps h
    unfold reachesLast at h
    unfold pulseInitLoop
    by_cases hl : j = last
    · simp [hl]
    · by_cases hi : j = idx
      · exact absurd (hi ▸ h) (by simp [hi ▸ hl])
      · simp only [hl, hi, if_false] at h ⊢
        exact ih _ _ h

theorem bass_reachesLast : ∀ idx, idx < 40 →
    reachesLast 40 idx ((if idx = 0 then 40 else idx) - 1) 39 ((idx + 1) % 40) = true := by
  decide

theorem mid_reachesLast : ∀ idx, idx < 50 →
    reachesLast 50 idx ((if idx = 0 then 50 else idx) - 1) 49 ((idx + 1) % 50) = true := by
  decide

theorem pulseInitLoop_bass (init : SoundPulse → SoundPulse) (ps : List SoundPulse)
    (idx : Nat) (h : idx < MAX_BASS_PULSES) :
    pulseInitLoop MAX_BASS_PULSES idx
      ((if idx = 0 then MAX_BASS_PULSES else idx) - 1) init MAX_BASS_PULSES idx ps
      = some (ps.modify init idx) := by
  simp only [MAX_BASS_PULSES] at h ⊢
  have hne : idx ≠ (if idx = 0 then 40 else idx) - 1 := by split <;> omega
  rw [show (40 : Nat) = 39 + 1 from rfl]
  unfold pulseInitLoop
  simp only [if_neg hne, if_true]
  exact pulseInitLoop_skip _ _ _ _ _ _ _ (bass_reachesLast idx h)

theorem pulseInitLoop_mid (init : SoundPulse → SoundPulse) (ps : List SoundPulse)
    (idx : Nat) (h : idx < MAX_MID_PULSES) :
    pulseInitLoop MAX_MID_PULSES idx
      ((if idx = 0 then MAX_MID_PULSES else idx) - 1) init MAX_MID_PULSES idx ps
      = some (ps.modify init idx) := by
  simp only [MAX_MID_PULSES] at h ⊢
  have hne : idx ≠ (if idx = 0 then 50 else idx) - 1 := by split <;> omega
  rw [show (50 : Nat) = 49 + 1 from rfl]
  unfold pulseInitLoop
  simp only [if_neg hne, if_true]
  exact pulseInitLoop_skip _ _ _ _ _ _ _ (mid_reachesLast idx h)

theorem bassTrigger_eq (env : Env) (g_rad : ℚ) (s : State)
    (h : s.g_bassPulseIndex < MAX_BASS_PULSES) :
    bassTrigger env g_rad s = some { s with
      g_bassPulses := s.g_bassPulses.modify
        (initBassPulse g_rad (env.rand s.randCalls) (env.rand (s.randCalls + 1))
          (env.rand (s.randCalls + 2))) s.g_bassPulseIndex
      g_bassPulseIndex := (s.g_bassPulseIndex + 1) % MAX_BASS_PULSES
      randCalls := s.randCalls + 3
      bassTriggers := s.bassTriggers + 1 } := by
  unfold bassTrigger
  simp only [pulseInitLoop_bass _ _ _ h]

theorem midTrigger_eq (env : Env) (s : State)
    (h : s.g_midPulseIndex < MAX_MID_PULSES) :
    midTrigger env s = some { s with
      g_midPulses := s.g_midPulses.modify
        (initMidPulse (env.rand s.randCalls) (env.rand (s.randCalls + 1))
          (env.rand (s.randCalls + 2))) s.g_midPulseIndex
      g_midPulseIndex := (s.g_midPulseIndex + 1) % MAX_MID_PULSES
      randCalls := s.randCalls + 3
      midTriggers := s.midTriggers + 1 } := by
  unfold midTrigger
  simp only [pulseInitLoop_mid _ _ _ h]

/-! ## The per-frame update loop -/

theorem drawPulses_succ (n : Nat) (upd : SoundPulse → SoundPulse) (ps : List SoundPulse) :
    drawPulses (n + 1) upd ps =
      match (drawPulses n upd ps)[n]? with
      | some p => if p.on_ then (drawPulses n upd ps).modify upd n else drawPulses n upd ps
      | none => drawPulses n upd ps := by
  simp only [drawPulses, List.range_succ, List.foldl_append, List.foldl_cons, List.foldl_nil]

theorem drawPulses_length (upd : SoundPulse → SoundPulse) (ps : List SoundPulse) :
    ∀ cap : Nat, (drawPulses cap upd ps).length = ps.length := by
  intro cap
  induction cap with
  | zero => rfl
  | succ n ih =>
    rw [drawPulses_succ]
    split
    · split
      · rw [List.length_modify, ih]
      · exact ih
    · exact ih

theorem drawPulses_getElem? (upd : SoundPulse → SoundPulse) (ps : List SoundPulse) :
    ∀ cap i : Nat, (drawPulses cap upd ps)[i]? =
      (ps[i]?).map (fun p => if i < cap ∧ p.on_ = true then upd p else p) := by
  intro cap
  induction cap with
  | zero => intro i; simp [drawPulses]
  | succ n ih =>
    intro i
    have hn : (drawPulses n upd ps)[n]? = ps[n]? := by rw [ih]; simp
    rw [drawPulses_succ, hn]
    by_cases hi : i = n
    · subst hi
      cases hp : ps[i]? with
      | none => simp [ih, hp]
      | some p =>
        by_cases hon : p.on_ = true
        · simp [hon, hn, hp]
        · simp [hon, ih, hp]
    · have hlt : (i < n + 1) ↔ (i < n) := by omega
      have hne : n ≠ i := fun h => hi h.symm
      simp only [hlt]
      cases hp : ps[n]? with
      | none => simp only [ih]
      | some p =>
        by_cases hon : p.on_ = true
        · simp only [hon, if_true, List.getElem?_modify_ne _ _ hne, ih]
        · simp only [hon, Bool.false_eq_true, if_false, ih]

/-! ## The blocks of `displayFunc` return, and what they return -/

theorem foldlM_eq_foldl {α β : Type} (step : α → β → Option α) (stepT : α → β → α)
    (P : α → Prop)
    (h : ∀ a x, P a → step a x = some (stepT a x) ∧ P (stepT a x)) :
    ∀ (l : List β) (a : α), P a →
      l.foldlM step a = some (l.foldl stepT a) ∧ P (l.foldl stepT a) := by
  intro l
  induction l with
  | nil => intro a ha; exact ⟨rfl, ha⟩
  | cons x xs ih =>
    intro a ha
    obtain ⟨h1, h2⟩ := h a x ha
    simp only [List.foldlM_cons, List.foldl_cons, h1]
    exact ih _ h2

theorem mod_lt_bass (n : Nat) : (n + 1) % MAX_BASS_PULSES < MAX_BASS_PULSES :=
  Nat.mod_lt _ (by decide)

theorem mod_lt_mid (n : Nat) : (n + 1) % MAX_MID_PULSES < MAX_MID_PULSES :=
  Nat.mod_lt _ (by decide)

theorem bassCheckBin_eq (env : Env) (f : Frame) (s : State) (i : Nat) (h : WellFormed s) :
    bassCheckBin env f s i = some (bassCheckBinT env f s i) ∧
      WellFormed (bassCheckBinT env f s i) := by
  unfold bassCheckBin bassCheckBinT
  by_cases hit : env.cmp_abs (f.cbuf i) > 0.001
  · by_cases hw : (s.g_bassPulseCounter + 1) % BASS_PULSE_STAGGER = 0
    · simp only [hit, hw, if_true]
      refine ⟨bassTrigger_eq env f.g_rad _ h.bassLt, ?_⟩
      exact ⟨mod_lt_bass _, h.midLt, by
        simp only [bassTriggerT, List.length_modify]; exact h.bassLen, h.midLen⟩
    · simp only [hit, hw, if_true, if_false]
      exact ⟨trivial, h.bassLt, h.midLt, h.bassLen, h.midLen⟩
  · simp only [hit, if_false]
    exact ⟨trivial, h⟩

theorem midCheckBin_eq (env : Env) (f : Frame) (s : State) (i : Nat) (h : WellFormed s) :
    midCheckBin env f s i = some (midCheckBinT env f s i) ∧
      WellFormed (midCheckBinT env f s i) := by
  unfold midCheckBin midCheckBinT
  by_cases hit : env.cmp_abs (f.cbuf i) > 0.0004
  · by_cases hw : (s.g_midPulseCounter + 1) % MID_PULSE_STAGGER = 0
    · simp only [hit, hw, if_true]
      refine ⟨midTrigger_eq env _ h.midLt, ?_⟩
      exact ⟨h.bassLt, mod_lt_mid _, h.bassLen, by
        simp only [midTriggerT, List.length_modify]; exact h.midLen⟩
    · simp only [hit, hw, if_true, if_false]
      exact ⟨trivial, h.bassLt, h.midLt, h.bassLen, h.midLen⟩
  · simp only [hit, if_false]
    exact ⟨trivial, h⟩

theorem bassSection_eq (env : Env) (f : Frame) (s : State) (h : WellFormed s) :
    bassSection env f s = some (bassSectionT env f s) ∧ WellFormed (bassSectionT env f s) := by
  unfold bassSection bassSectionT bassScan
  by_cases ht : s.g_toggleBassPulses = true
  · obtain ⟨h1, h2⟩ := foldlM_eq_foldl (bassCheckBin env f) (bassCheckBinT env f) WellFormed
      (fun a x ha => bassCheckBin_eq env f a x ha) (bassBins s.g_windowSize) s h
    rw [if_pos ht, if_pos ht, h1, Option.map_some']
    refine ⟨rfl, h2.bassLt, h2.midLt, ?_, h2.midLen⟩
    simp only [drawPulses_length]
    exact h2.bassLen
  · have hf : s.g_toggleBassPulses = false := by simpa using ht
    simp only [hf, Bool.false_eq_true, if_false]
    exact ⟨trivial, h⟩

theorem midSection_eq (env : Env) (f : Frame) (s : State) (h : WellFormed s) :
    midSection env f s = some (midSectionT env f s) ∧ WellFormed (midSectionT env f s) := by
  unfold midSection midSectionT midScan
  by_cases ht : s.g_toggleMidPulses = true
  · obtain ⟨h1, h2⟩ := foldlM_eq_foldl (midCheckBin env f) (midCheckBinT env f) WellFormed
      (fun a x ha => midCheckBin_eq env f a x ha) (midBins s.g_windowSize) s h
    rw [if_pos ht, if_pos ht, h1, Option.map_some']
    refine ⟨rfl, h2.bassLt, h2.midLt, h2.bassLen, ?_⟩
    simp only [drawPulses_length]
    exact h2.midLen
  · have hf : s.g_toggleMidPulses = false := by simpa using ht
    simp only [hf, Bool.false_eq_true, if_false]
    exact ⟨trivial, h⟩

theorem historySection_same (f : Frame) (s : State) :
    SameOutsideHistory s (historySection f s) := by
  unfold historySection saveHistory
  split <;> constructor <;> rfl

theorem displayFunc_eq (env : Env) (s : State) (f : Frame) (h : WellFormed s) :
    displayFunc env s f = some (displayFuncT env s f) ∧ WellFormed (displayFuncT env s f) := by
  obtain ⟨b1, b2⟩ := bassSection_eq env f s h
  obtain ⟨m1, m2⟩ := midSection_eq env f _ b2
  unfold displayFunc displayFuncT
  simp only [b1, m1, Option.some_bind, Option.map_some']
  have hh := historySection_same f (midSectionT env f (bassSectionT env f s))
  exact ⟨trivial, by rw [hh.bassIndex]; exact m2.bassLt, by rw [hh.midIndex]; exact m2.midLt,
    by rw [hh.bassPulses]; exact m2.bassLen, by rw [hh.midPulses]; exact m2.midLen⟩

theorem runFrames_eq (env : Env) (fs : List Frame) (s : State) (h : WellFormed s) :
    runFrames env s fs = some (fs.foldl (displayFuncT env) s) ∧
      WellFormed (fs.foldl (displayFuncT env) s) :=
  foldlM_eq_foldl (displayFunc env) (displayFuncT env) WellFormed
    (fun a x ha => displayFunc_eq env a x ha) fs s h

theorem wellFormed_initState (n : Nat) : WellFormed (initState n) := by
  exact ⟨Nat.succ_pos _, Nat.succ_pos _, List.length_replicate _ _, List.length_replicate _ _⟩


/-! ## What each block leaves alone -/

theorem sameOutsideBass_refl (s : State) : SameOutsideBass s s := by
  constructor <;> rfl

theorem sameOutsideBass_trans {s t u : State} (h1 : SameOutsideBass s t)
    (h2 : SameOutsideBass t u) : SameOutsideBass s u := by
  constructor
  · exact h2.windowSize.trans h1.windowSize
  · exact h2.toggleBass.trans h1.toggleBass
  · exact h2.toggleMid.trans h1.toggleMid
  · exact h2.toggleFD.trans h1.toggleFD
  · exact h2.midPulses.trans h1.midPulses
  · exact h2.midCounter.trans h1.midCounter
  · exact h2.midIndex.trans h1.midIndex
  · exact h2.history.trans h1.history
  · exact h2.nHistory.trans h1.nHistory
  · exact h2.midTriggers.trans h1.midTriggers

theorem sameOutsideMid_refl (s : State) : SameOutsideMid s s := by
  constructor <;> rfl

theorem sameOutsideMid_trans {s t u : State} (h1 : SameOutsideMid s t)
    (h2 : SameOutsideMid t u) : SameOutsideMid s u := by
  constructor
  · exact h2.windowSize.trans h1.windowSize
  · exact h2.toggleBass.trans h1.toggleBass
  · exact h2.toggleMid.trans h1.toggleMid
  · exact h2.toggleFD.trans h1.toggleFD
  · exact h2.bassPulses.trans h1.bassPulses
  · exact h2.bassCounter.trans h1.bassCounter
  · exact h2.bassIndex.trans h1.bassIndex
  · exact h2.history.trans h1.history
  · exact h2.nHistory.trans h1.nHistory
  · exact h2.bassTriggers.trans h1.bassTriggers

theorem bassCheckBinT_same (env : Env) (f : Frame) (s : State) (i : Nat) :
    SameOutsideBass s (bassCheckBinT env f s i) := by
  unfold bassCheckBinT bassTriggerT
  split_ifs <;> constructor <;> rfl

theorem midCheckBinT_same (env : Env) (f : Frame) (s : State) (i : Nat) :
    SameOutsideMid s (midCheckBinT env f s i) := by
  unfold midCheckBinT midTriggerT
  split_ifs <;> constructor <;> rfl

theorem bassFold_same (env : Env) (f : Frame) (l : List Nat) :
    ∀ s : State, SameOutsideBass s (l.foldl (bassCheckBinT env f) s) := by
  induction l with
  | nil => intro s; exact sameOutsideBass_refl s
  | cons x xs ih =>
    intro s
    exact sameOutsideBass_trans (bassCheckBinT_same env f s x) (ih _)

theorem midFold_same (env : Env) (f : Frame) (l : List Nat) :
    ∀ s : State, SameOutsideMid s (l.foldl (midCheckBinT env f) s) := by
  induction l with
  | nil => intro s; exact sameOutsideMid_refl s
  | cons x xs ih =>
    intro s
    exact sameOutsideMid_trans (midCheckBinT_same env f s x) (ih _)

theorem bassSectionT_same (env : Env) (f : Frame) (s : State) :
    SameOutsideBass s (bassSectionT env f s) := by
  have h := bassFold_same env f (bassBins s.g_windowSize) s
  unfold bassSectionT
  split
  · exact ⟨h.windowSize, h.toggleBass, h.toggleMid, h.toggleFD, h.midPulses, h.midCounter,
      h.midIndex, h.history, h.nHistory, h.midTriggers⟩
  · exact sameOutsideBass_refl s

theorem midSectionT_same (env : Env) (f : Frame) (s : State) :
    SameOutsideMid s (midSectionT env f s) := by
  have h := midFold_same env f (midBins s.g_windowSize) s
  unfold midSectionT
  split
  · exact ⟨h.windowSize, h.toggleBass, h.toggleMid, h.toggleFD, h.bassPulses, h.bassCounter,
      h.bassIndex, h.history, h.nHistory, h.bassTriggers⟩
  · exact sameOutsideMid_refl s

/-! ## One bin of a scan, field by field -/

theorem bassCheckBinT_counter (env : Env) (f : Frame) (s : State) (i : Nat) :
    (bassCheckBinT env f s i).g_bassPulseCounter =
      if env.cmp_abs (f.cbuf i) > 0.001 then (s.g_bassPulseCounter + 1) % BASS_PULSE_STAGGER
      else s.g_bassPulseCounter := by
  unfold bassCheckBinT bassTriggerT
  split_ifs <;> rfl

theorem bassCheckBinT_triggers (env : Env) (f : Frame) (s : State) (i : Nat) :
    (bassCheckBinT env f s i).bassTriggers =
      if env.cmp_abs (f.cbuf i) > 0.001 ∧ (s.g_bassPulseCounter + 1) % BASS_PULSE_STAGGER = 0
      then s.bassTriggers + 1 else s.bassTriggers := by
  unfold bassCheckBinT bassTriggerT
  by_cases h1 : env.cmp_abs (f.cbuf i) > 0.001 <;>
    by_cases h2 : (s.g_bassPulseCounter + 1) % BASS_PULSE_STAGGER = 0 <;> simp [h1, h2]

theorem bassCheckBinT_index (env : Env) (f : Frame) (s : State) (i : Nat) :
    (bassCheckBinT env f s i).g_bassPulseIndex =
      if env.cmp_abs (f.cbuf i) > 0.001 ∧ (s.g_bassPulseCounter + 1) % BASS_PULSE_STAGGER = 0
      then (s.g_bassPulseIndex + 1) % MAX_BASS_PULSES else s.g_bassPulseIndex := by
  unfold bassCheckBinT bassTriggerT
  by_cases h1 : env.cmp_abs (f.cbuf i) > 0.001 <;>
    by_cases h2 : (s.g_bassPulseCounter + 1) % BASS_PULSE_STAGGER = 0 <;> simp [h1, h2]

theorem bassCheckBinT_pulses (env : Env) (f : Frame) (s : State) (i : Nat) :
    (bassCheckBinT env f s i).g_bassPulses =
      if env.cmp_abs (f.cbuf i) > 0.001 ∧ (s.g_bassPulseCounter + 1) % BASS_PULSE_STAGGER = 0
      then s.g_bassPulses.modify
        (initBassPulse f.g_rad (env.rand s.randCalls) (env.rand (s.randCalls + 1))
          (env.rand (s.randCalls + 2))) s.g_bassPulseIndex
      else s.g_bassPulses := by
  unfold bassCheckBinT bassTriggerT
  by_cases h1 : env.cmp_abs (f.cbuf i) > 0.001 <;>
    by_cases h2 : (s.g_bassPulseCounter + 1) % BASS_PULSE_STAGGER = 0 <;> simp [h1, h2]

theorem midCheckBinT_counter (env : Env) (f : Frame) (s : State) (i : Nat) :
    (midCheckBinT env f s i).g_midPulseCounter =
      if env.cmp_abs (f.cbuf i) > 0.0004 then (s.g_midPulseCounter + 1) % MID_PULSE_STAGGER
      else s.g_midPulseCounter := by
  unfold midCheckBinT midTriggerT
  split_ifs <;> rfl

theorem midCheckBinT_triggers (env : Env) (f : Frame) (s : State) (i : Nat) :
    (midCheckBinT env f s i).midTriggers =
      if env.cmp_abs (f.cbuf i) > 0.0004 ∧ (s.g_midPulseCounter + 1) % MID_PULSE_STAGGER = 0
      then s.midTriggers + 1 else s.midTriggers := by
  unfold midCheckBinT midTriggerT
  by_cases h1 : env.cmp_abs (f.cbuf i) > 0.0004 <;>
    by_cases h2 : (s.g_midPulseCounter + 1) % MID_PULSE_STAGGER = 0 <;> simp [h1, h2]

theorem midCheckBinT_index (env : Env) (f : Frame) (s : State) (i : Nat) :
    (midCheckBinT env f s i).g_midPulseIndex =
      if env.cmp_abs (f.cbuf i) > 0.0004 ∧ (s.g_midPulseCounter + 1) % MID_PULSE_STAGGER = 0
      then (s.g_midPulseIndex + 1) % MAX_MID_PULSES else s.g_midPulseIndex := by
  unfold midCheckBinT midTriggerT
  by_cases h1 : env.cmp_abs (f.cbuf i) > 0.0004 <;>
    by_cases h2 : (s.g_midPulseCounter + 1) % MID_PULSE_STAGGER = 0 <;> simp [h1, h2]

theorem midCheckBinT_pulses (env : Env) (f : Frame) (s : State) (i : Nat) :
    (midCheckBinT env f s i).g_midPulses =
      if env.cmp_abs (f.cbuf i) > 0.0004 ∧ (s.g_midPulseCounter + 1) % MID_PULSE_STAGGER = 0
      then s.g_midPulses.modify
        (initMidPulse (env.rand s.randCalls) (env.rand (s.randCalls + 1))
          (env.rand (s.randCalls + 2))) s.g_midPulseIndex
      else s.g_midPulses := by
  unfold midCheckBinT midTriggerT
  by_cases h1 : env.cmp_abs (f.cbuf i) > 0.0004 <;>
    by_cases h2 : (s.g_midPulseCounter + 1) % MID_PULSE_STAGGER = 0 <;> simp [h1, h2]

/-! ## The frame step, seen from the bass block and from the mid block -/

theorem bassSectionT_on (env : Env) (f : Frame) (s : State)
    (h : s.g_toggleBassPulses = true) :
    bassSectionT env f s =
      { (bassBins s.g_windowSize).foldl (bassCheckBinT env f) s with
        g_bassPulses := drawPulses MAX_BASS_PULSES updateBassPulse
          ((bassBins s.g_windowSize).foldl (bassCheckBinT env f) s).g_bassPulses } := by
  unfold bassSectionT
  rw [if_pos h]

theorem midSectionT_on (env : Env) (f : Frame) (s : State)
    (h : s.g_toggleMidPulses = true) :
    midSectionT env f s =
      { (midBins s.g_windowSize).foldl (midCheckBinT env f) s with
        g_midPulses := drawPulses MAX_MID_PULSES updateMidPulse
          ((midBins s.g_windowSize).foldl (midCheckBinT env f) s).g_midPulses } := by
  unfold midSectionT
  rw [if_pos h]

theorem displayFuncT_bass (env : Env) (s : State) (f : Frame) :
    (displayFuncT env s f).g_bassPulses = (bassSectionT env f s).g_bassPulses ∧
    (displayFuncT env s f).g_bassPulseCounter = (bassSectionT env f s).g_bassPulseCounter ∧
    (displayFuncT env s f).g_bassPulseIndex = (bassSectionT env f s).g_bassPulseIndex ∧
    (displayFuncT env s f).bassTriggers = (bassSectionT env f s).bassTriggers := by
  have hm := midSectionT_same env f (bassSectionT env f s)
  have hh := historySection_same f (midSectionT env f (bassSectionT env f s))
  unfold displayFuncT
  exact ⟨hh.bassPulses.trans hm.bassPulses, hh.bassCounter.trans hm.bassCounter,
    hh.bassIndex.trans hm.bassIndex, hh.bassTriggers.trans hm.bassTriggers⟩

theorem displayFuncT_mid (env : Env) (s : State) (f : Frame) :
    (displayFuncT env s f).g_midPulses =
      (midSectionT env f (bassSectionT env f s)).g_midPulses ∧
    (displayFuncT env s f).g_midPulseCounter =
      (midSectionT env f (bassSectionT env f s)).g_midPulseCounter ∧
    (displayFuncT env s f).g_midPulseIndex =
      (midSectionT env f (bassSectionT env f s)).g_midPulseIndex ∧
    (displayFuncT env s f).midTriggers =
      (midSectionT env f (bassSectionT env f s)).midTriggers := by
  have hh := historySection_same f (midSectionT env f (bassSectionT env f s))
  unfold displayFuncT
  exact ⟨hh.midPulses, hh.midCounter, hh.midIndex, hh.midTriggers⟩

theorem displayFuncT_config (env : Env) (s : State) (f : Frame) :
    (displayFuncT env s f).g_windowSize = s.g_windowSize ∧
    (displayFuncT env s f).g_toggleBassPulses = s.g_toggleBassPulses ∧
    (displayFuncT env s f).g_toggleMidPulses = s.g_toggleMidPulses ∧
    (displayFuncT env s f).g_toggleFDWaveform = s.g_toggleFDWaveform := by
  have hb := bassSectionT_same env f s
  have hm := midSectionT_same env f (bassSectionT env f s)
  have hh := historySection_same f (midSectionT env f (bassSectionT env f s))
  unfold displayFuncT
  exact ⟨(hh.windowSize.trans hm.windowSize).trans hb.windowSize,
    (hh.toggleBass.trans hm.toggleBass).trans hb.toggleBass,
    (hh.toggleMid.trans hm.toggleMid).trans hb.toggleMid,
    (hh.toggleFD.trans hm.toggleFD).trans hb.toggleFD⟩

/-! ## C1: the bass triggers are rate-limited -/

theorem bassFold_all_hit (env : Env) (f : Frame) (l : List Nat) :
    ∀ s : State, s.g_bassPulseCounter < 200 →
      (∀ i ∈ l, env.cmp_abs (f.cbuf i) > 0.001) →
      200 * (l.foldl (bassCheckBinT env f) s).bassTriggers +
          (l.foldl (bassCheckBinT env f) s).g_bassPulseCounter =
        200 * s.bassTriggers + s.g_bassPulseCounter + l.length ∧
      (l.foldl (bassCheckBinT env f) s).g_bassPulseCounter < 200 := by
  induction l with
  | nil => intro s hc _; exact ⟨rfl, hc⟩
  | cons x xs ih =>
    intro s hc hall
    have hx : env.cmp_abs (f.cbuf x) > 0.001 := hall x (List.mem_cons_self _ _)
    have h1 := bassCheckBinT_counter env f s x
    have h2 := bassCheckBinT_triggers env f s x
    simp only [hx, if_true, true_and, BASS_PULSE_STAGGER] at h1 h2
    have hc1 : (bassCheckBinT env f s x).g_bassPulseCounter < 200 := by
      rw [h1]; exact Nat.mod_lt _ (by decide)
    obtain ⟨e, b⟩ := ih (bassCheckBinT env f s x) hc1
      (fun i hi => hall i (List.mem_cons_of_mem _ hi))
    refine ⟨?_, b⟩
    simp only [List.foldl_cons, List.length_cons]
    rw [e, h1, h2]
    split <;> omega

theorem bassBins_length : (bassBins 1024).length = 20 := by
  simp [bassBins]

theorem displayFuncT_all_hit (env : Env) (s : State) (f : Frame)
    (hw : s.g_windowSize = 1024) (ht : s.g_toggleBassPulses = true)
    (hc : s.g_bassPulseCounter < 200)
    (hall : ∀ i ∈ bassBins 1024, env.cmp_abs (f.cbuf i) > 0.001) :
    200 * (displayFuncT env s f).bassTriggers + (displayFuncT env s f).g_bassPulseCounter =
        200 * s.bassTriggers + s.g_bassPulseCounter + 20 ∧
      (displayFuncT env s f).g_bassPulseCounter < 200 := by
  obtain ⟨-, h2, -, h4⟩ := displayFuncT_bass env s f
  rw [h2, h4, bassSectionT_on env f s ht, hw]
  have := bassFold_all_hit env f (bassBins 1024) s hc hall
  rw [bassBins_length] at this
  exact this

theorem runT_all_hit (env : Env) (fs : List Frame) :
    ∀ s : State, s.g_windowSize = 1024 → s.g_toggleBassPulses = true →
      s.g_bassPulseCounter < 200 →
      (∀ f ∈ fs, ∀ i ∈ bassBins 1024, env.cmp_abs (f.cbuf i) > 0.001) →
      200 * (fs.foldl (displayFuncT env) s).bassTriggers +
          (fs.foldl (displayFuncT env) s).g_bassPulseCounter =
        200 * s.bassTriggers + s.g_bassPulseCounter + 20 * fs.length ∧
      (fs.foldl (displayFuncT env) s).g_bassPulseCounter < 200 := by
  induction fs with
  | nil => intro s _ _ hc _; exact ⟨rfl, hc⟩
  | cons f fs ih =>
    intro s hw ht hc hall
    obtain ⟨e1, c1⟩ := displayFuncT_all_hit env s f hw ht hc
      (hall f (List.mem_cons_self _ _))
    obtain ⟨w1, t1, -, -⟩ := displayFuncT_config env s f
    obtain ⟨e2, c2⟩ := ih (displayFuncT env s f) (w1.trans hw) (t1.trans ht) c1
      (fun g hg => hall g (List.mem_cons_of_mem _ hg))
    refine ⟨?_, c2⟩
    simp only [List.foldl_cons, List.length_cons]
    omega

/-- C1: from the initial state with N = 1024, if in each of K consecutive
frame steps every bin the bass scan visits has magnitude above 0.001, the
frame steps all return and the number of bass triggers fired over the K frames
is floor((K * bassBinCount) / 200), where bassBinCount = 20 is the number of
bins the bass scan visits. -/
theorem C1_bass_triggers_rate_limited (env : Env) (fs : List Frame)
    (hall : ∀ f ∈ fs, ∀ i ∈ bassBins 1024, env.cmp_abs (f.cbuf i) > 0.001) :
    ∃ s, runFrames env (initState 1024) fs = some s ∧
      s.bassTriggers = (fs.length * (bassBins 1024).length) / 200 := by
  obtain ⟨hrun, -⟩ := runFrames_eq env fs (initState 1024) (wellFormed_initState 1024)
  refine ⟨_, hrun, ?_⟩
  obtain ⟨e, c⟩ := runT_all_hit env fs (initState 1024) rfl rfl (Nat.succ_pos _) hall
  have h0 : (initState 1024).bassTriggers = 0 := rfl
  have h1 : (initState 1024).g_bassPulseCounter = 0 := rfl
  rw [bassBins_length]
  rw [h0, h1] at e
  omega

/-- C1 at ten loud frames: one trigger. -/
theorem C1_bass_triggers_rate_limited_witness :
    (∀ f ∈ List.replicate 10 loudFrame, ∀ i ∈ bassBins 1024,
        sampleEnv.cmp_abs (f.cbuf i) > 0.001) ∧
      ∃ s, runFrames sampleEnv (initState 1024) (List.replicate 10 loudFrame) = some s ∧
        s.bassTriggers =
          ((List.replicate 10 loudFrame).length * (bassBins 1024).length) / 200 :=
  have h : ∀ f ∈ List.replicate 10 loudFrame, ∀ i ∈ bassBins 1024,
      sampleEnv.cmp_abs (f.cbuf i) > 0.001 := by
    intro f hf i _
    rw [List.eq_of_mem_replicate hf]
    norm_num [sampleEnv, loudFrame]
  ⟨h, C1_bass_triggers_rate_limited sampleEnv (List.replicate 10 loudFrame) h⟩

/-! ## C2: at most one trigger per frame and pool -/

theorem bassFold_no_wrap (env : Env) (f : Frame) (l : List Nat) :
    ∀ s : State, s.g_bassPulseCounter + l.length < 200 →
      (l.foldl (bassCheckBinT env f) s).bassTriggers = s.bassTriggers ∧
      (l.foldl (bassCheckBinT env f) s).g_bassPulseIndex = s.g_bassPulseIndex := by
  induction l with
  | nil => intro s _; exact ⟨rfl, rfl⟩
  | cons x xs ih =>
    intro s hc
    simp only [List.length_cons] at hc
    have h1 := bassCheckBinT_counter env f s x
    have h2 := bassCheckBinT_triggers env f s x
    have h3 := bassCheckBinT_index env f s x
    have hm : (s.g_bassPulseCounter + 1) % 200 = s.g_bassPulseCounter + 1 :=
      Nat.mod_eq_of_lt (by omega)
    have hnw : ¬ (s.g_bassPulseCounter + 1) % 200 = 0 := by omega
    simp only [BASS_PULSE_STAGGER, hnw, and_false, if_false] at h1 h2 h3
    have hc1 : (bassCheckBinT env f s x).g_bassPulseCounter + xs.length < 200 := by
      rw [h1]; split <;> omega
    obtain ⟨a, b⟩ := ih _ hc1
    simp only [List.foldl_cons]
    exact ⟨a.trans h2, b.trans h3⟩

theorem bassFold_at_most_one (env : Env) (f : Frame) (l : List Nat) :
    ∀ s : State, l.length ≤ 200 →
      ((l.foldl (bassCheckBinT env f) s).bassTriggers = s.bassTriggers ∧
        (l.foldl (bassCheckBinT env f) s).g_bassPulseIndex = s.g_bassPulseIndex) ∨
      ((l.foldl (bassCheckBinT env f) s).bassTriggers = s.bassTriggers + 1 ∧
        (l.foldl (bassCheckBinT env f) s).g_bassPulseIndex =
          (s.g_bassPulseIndex + 1) % MAX_BASS_PULSES) := by
  induction l with
  | nil => intro s _; exact Or.inl ⟨rfl, rfl⟩
  | cons x xs ih =>
    intro s hl
    simp only [List.length_cons] at hl
    have h1 := bassCheckBinT_counter env f s x
    have h2 := bassCheckBinT_triggers env f s x
    have h3 := bassCheckBinT_index env f s x
    simp only [List.foldl_cons]
    by_cases hit : env.cmp_abs (f.cbuf x) > 0.001 ∧
        (s.g_bassPulseCounter + 1) % BASS_PULSE_STAGGER = 0
    · rw [if_pos hit] at h2 h3
      rw [if_pos hit.1, hit.2] at h1
      obtain ⟨a, b⟩ := bassFold_no_wrap env f xs (bassCheckBinT env f s x)
        (by rw [h1]; omega)
      exact Or.inr ⟨a.trans h2, b.trans h3⟩
    · rw [if_neg hit] at h2 h3
      rcases ih (bassCheckBinT env f s x) (by omega) with ⟨a, b⟩ | ⟨a, b⟩
      · exact Or.inl ⟨a.trans h2, b.trans h3⟩
      · exact Or.inr ⟨by rw [a, h2], by rw [b, h3]⟩

theorem midFold_no_wrap (env : Env) (f : Frame) (l : List Nat) :
    ∀ s : State, s.g_midPulseCounter + l.length < 400 →
      (l.foldl (midCheckBinT env f) s).midTriggers = s.midTriggers ∧
      (l.foldl (midCheckBinT env f) s).g_midPulseIndex = s.g_midPulseIndex := by
  induction l with
  | nil => intro s _; exact ⟨rfl, rfl⟩
  | cons x xs ih =>
    intro s hc
    simp only [List.length_cons] at hc
    have h1 := midCheckBinT_counter env f s x
    have h2 := midCheckBinT_triggers env f s x
    have h3 := midCheckBinT_index env f s x
    have hm : (s.g_midPulseCounter + 1) % 400 = s.g_midPulseCounter + 1 :=
      Nat.mod_eq_of_lt (by omega)
    have hnw : ¬ (s.g_midPulseCounter + 1) % 400 = 0 := by omega
    simp only [MID_PULSE_STAGGER, hnw, and_false, if_false] at h1 h2 h3
    have hc1 : (midCheckBinT env f s x).g_midPulseCounter + xs.length < 400 := by
      rw [h1]; split <;> omega
    obtain ⟨a, b⟩ := ih _ hc1
    simp only [List.foldl_cons]
    exact ⟨a.trans h2, b.trans h3⟩

theorem midFold_at_most_one (env : Env) (f : Frame) (l : List Nat) :
    ∀ s : State, l.length ≤ 400 →
      ((l.foldl (midCheckBinT env f) s).midTriggers = s.midTriggers ∧
        (l.foldl (midCheckBinT env f) s).g_midPulseIndex = s.g_midPulseIndex) ∨
      ((l.foldl (midCheckBinT env f) s).midTriggers = s.midTriggers + 1 ∧
        (l.foldl (midCheckBinT env f) s).g_midPulseIndex =
          (s.g_midPulseIndex + 1) % MAX_MID_PULSES) := by
  induction l with
  | nil => intro s _; exact Or.inl ⟨rfl, rfl⟩
  | cons x xs ih =>
    intro s hl
    simp only [List.length_cons] at hl
    have h1 := midCheckBinT_counter env f s x
    have h2 := midCheckBinT_triggers env f s x
    have h3 := midCheckBinT_index env f s x
    simp only [List.foldl_cons]
    by_cases hit : env.cmp_abs (f.cbuf x) > 0.0004 ∧
        (s.g_midPulseCounter + 1) % MID_PULSE_STAGGER = 0
    · rw [if_pos hit] at h2 h3
      rw [if_pos hit.1, hit.2] at h1
      obtain ⟨a, b⟩ := midFold_no_wrap env f xs (midCheckBinT env f s x)
        (by rw [h1]; omega)
      exact Or.inr ⟨a.trans h2, b.trans h3⟩
    · rw [if_neg hit] at h2 h3
      rcases ih (midCheckBinT env f s x) (by omega) with ⟨a, b⟩ | ⟨a, b⟩
      · exact Or.inl ⟨a.trans h2, b.trans h3⟩
      · exact Or.inr ⟨by rw [a, h2], by rw [b, h3]⟩

theorem midBins_length : (midBins 1024).length = 379 := by
  simp [midBins]

theorem bassSectionT_at_most_one (env : Env) (f : Frame) (s : State)
    (hw : s.g_windowSize = 1024) :
    ((bassSectionT env f s).bassTriggers = s.bassTriggers ∧
      (bassSectionT env f s).g_bassPulseIndex = s.g_bassPulseIndex) ∨
    ((bassSectionT env f s).bassTriggers = s.bassTriggers + 1 ∧
      (bassSectionT env f s).g_bassPulseIndex =
        (s.g_bassPulseIndex + 1) % MAX_BASS_PULSES) := by
  by_cases ht : s.g_toggleBassPulses = true
  · rw [bassSectionT_on env f s ht, hw]
    exact bassFold_at_most_one env f (bassBins 1024) s (by rw [bassBins_length]; omega)
  · unfold bassSectionT
    rw [if_neg ht]
    exact Or.inl ⟨rfl, rfl⟩

theorem midSectionT_at_most_one (env : Env) (f : Frame) (s : State)
    (hw : s.g_windowSize = 1024) :
    ((midSectionT env f s).midTriggers = s.midTriggers ∧
      (midSectionT env f s).g_midPulseIndex = s.g_midPulseIndex) ∨
    ((midSectionT env f s).midTriggers = s.midTriggers + 1 ∧
      (midSectionT env f s).g_midPulseIndex =
        (s.g_midPulseIndex + 1) % MAX_MID_PULSES) := by
  by_cases ht : s.g_toggleMidPulses = true
  · rw [midSectionT_on env f s ht, hw]
    exact midFold_at_most_one env f (midBins 1024) s (by rw [midBins_length]; omega)
  · unfold midSectionT
    rw [if_neg ht]
    exact Or.inl ⟨rfl, rfl⟩

/-- C2: for N = 1024, from every state whose allocation indices point into
their pools (whatever the stagger counters) and for every spectrum, the frame
step returns, and it fires no or exactly one bass trigger and no or exactly one
mid trigger: each allocation index stays or advances by one modulo the
capacity, however many bins exceed the threshold. -/
theorem C2_at_most_one_trigger_per_frame (env : Env) (s : State) (f : Frame)
    (hw : s.g_windowSize = 1024) (hwf : WellFormed s) :
    ∃ t, displayFunc env s f = some t ∧
      ((t.bassTriggers = s.bassTriggers ∧ t.g_bassPulseIndex = s.g_bassPulseIndex) ∨
        (t.bassTriggers = s.bassTriggers + 1 ∧
          t.g_bassPulseIndex = (s.g_bassPulseIndex + 1) % MAX_BASS_PULSES)) ∧
      ((t.midTriggers = s.midTriggers ∧ t.g_midPulseIndex = s.g_midPulseIndex) ∨
        (t.midTriggers = s.midTriggers + 1 ∧
          t.g_midPulseIndex = (s.g_midPulseIndex + 1) % MAX_MID_PULSES)) := by
  refine ⟨_, (displayFunc_eq env s f hwf).1, ?_, ?_⟩
  · obtain ⟨-, -, h3, h4⟩ := displayFuncT_bass env s f
    rw [h3, h4]
    exact bassSectionT_at_most_one env f s hw
  · obtain ⟨-, -, h3, h4⟩ := displayFuncT_mid env s f
    have hb := bassSectionT_same env f s
    rw [h3, h4, ← hb.midTriggers, ← hb.midIndex]
    exact midSectionT_at_most_one env f _ (hb.windowSize.trans hw)

/-- C2 at the initial state and a frame in which every bin is loud. -/
theorem C2_at_most_one_trigger_per_frame_witness :
    (initState 1024).g_windowSize = 1024 ∧ WellFormed (initState 1024) ∧
    ∃ t, displayFunc sampleEnv (initState 1024) loudFrame = some t ∧
      ((t.bassTriggers = (initState 1024).bassTriggers ∧
          t.g_bassPulseIndex = (initState 1024).g_bassPulseIndex) ∨
        (t.bassTriggers = (initState 1024).bassTriggers + 1 ∧
          t.g_bassPulseIndex = ((initState 1024).g_bassPulseIndex + 1) % MAX_BASS_PULSES)) ∧
      ((t.midTriggers = (initState 1024).midTriggers ∧
          t.g_midPulseIndex = (initState 1024).g_midPulseIndex) ∨
        (t.midTriggers = (initState 1024).midTriggers + 1 ∧
          t.g_midPulseIndex = ((initState 1024).g_midPulseIndex + 1) % MAX_MID_PULSES)) :=
  ⟨rfl, wellFormed_initState 1024,
    C2_at_most_one_trigger_per_frame sampleEnv (initState 1024) loudFrame rfl
      (wellFormed_initState 1024)⟩

/-! ## C3: one loud bin for 200 frames -/

theorem bassFold_all_miss (env : Env) (f : Frame) (l : List Nat) :
    ∀ s : State, (∀ i ∈ l, ¬ env.cmp_abs (f.cbuf i) > 0.001) →
      l.foldl (bassCheckBinT env f) s = s := by
  induction l with
  | nil => intro s _; rfl
  | cons x xs ih =>
    intro s h
    have hx : bassCheckBinT env f s x = s := by
      unfold bassCheckBinT
      rw [if_neg (h x (List.mem_cons_self _ _))]
    rw [List.foldl_cons, hx]
    exact ih s (fun i hi => h i (List.mem_cons_of_mem _ hi))

theorem bassBins_eq_cons : bassBins 1024 = 0 :: List.range' 1 19 := by
  decide

theorem bassSectionT_bin_zero (env : Env) (f : Frame) (s : State)
    (hw : s.g_windowSize = 1024) (ht : s.g_toggleBassPulses = true)
    (hf : OnlyBinZero env f) :
    bassSectionT env f s =
      { bassCheckBinT env f s 0 with
        g_bassPulses := drawPulses MAX_BASS_PULSES updateBassPulse
          (bassCheckBinT env f s 0).g_bassPulses } := by
  have hrest : (List.range' 1 19).foldl (bassCheckBinT env f) (bassCheckBinT env f s 0) =
      bassCheckBinT env f s 0 := by
    apply bassFold_all_miss
    intro i hi
    have hmem : i ∈ bassBins 1024 := by
      rw [bassBins_eq_cons]; exact List.mem_cons_of_mem _ hi
    have hne : i ≠ 0 := by
      have := (List.mem_range'_1.mp hi).1
      omega
    exact not_lt.mpr (hf.2 i hmem hne)
  rw [bassSectionT_on env f s ht, hw, bassBins_eq_cons, List.foldl_cons, hrest]

theorem drawPulses_all_off (cap : Nat) (upd : SoundPulse → SoundPulse)
    (ps : List SoundPulse) (h : ∀ p ∈ ps, p.on_ = false) : drawPulses cap upd ps = ps := by
  apply List.ext_getElem?
  intro i
  rw [drawPulses_getElem?]
  cases hp : ps[i]? with
  | none => rfl
  | some p =>
    have hoff : p.on_ = false := h p (List.getElem?_mem hp)
    simp [hoff]

theorem replicate_default_off (n : Nat) :
    ∀ p ∈ List.replicate n defaultPulse, p.on_ = false := by
  intro p hp
  rw [List.eq_of_mem_replicate hp]
  rfl

theorem hit_of_onlyBinZero (env : Env) (f : Frame) (hf : OnlyBinZero env f) :
    env.cmp_abs (f.cbuf 0) > 0.001 := by
  rw [hf.1]; norm_num

theorem quietBass_step (env : Env) (s : State) (f : Frame) (k : Nat)
    (hq : QuietBass s k) (hk : k + 1 < 200) (hf : OnlyBinZero env f) :
    QuietBass (displayFuncT env s f) (k + 1) := by
  obtain ⟨b1, b2, b3, b4⟩ := displayFuncT_bass env s f
  obtain ⟨c1, c2, -, -⟩ := displayFuncT_config env s f
  have hsec := bassSectionT_bin_zero env f s hq.windowSize hq.toggleBass hf
  have hit := hit_of_onlyBinZero env f hf
  have h1 := bassCheckBinT_counter env f s 0
  have h2 := bassCheckBinT_triggers env f s 0
  have h3 := bassCheckBinT_index env f s 0
  have h4 := bassCheckBinT_pulses env f s 0
  have hnw : ¬ (k + 1) % 200 = 0 := by omega
  have hm : (k + 1) % 200 = k + 1 := Nat.mod_eq_of_lt hk
  simp only [hit, hq.counter, BASS_PULSE_STAGGER, hm, if_true] at h1
  simp only [hit, hq.counter, BASS_PULSE_STAGGER, hnw, and_false, if_false] at h2 h3 h4
  rw [hsec] at b1 b2 b3 b4
  simp only at b1 b2 b3 b4
  rw [h4, hq.pulses, drawPulses_all_off _ _ _ (replicate_default_off _)] at b1
  exact ⟨c1.trans hq.windowSize, c2.trans hq.toggleBass, b2.trans h1,
    (b4.trans h2).trans hq.triggers, (b3.trans h3).trans hq.index, b1⟩

theorem quietBass_run (env : Env) (fs : List Frame) :
    ∀ (s : State) (k : Nat), QuietBass s k → k + fs.length < 200 →
      (∀ f ∈ fs, OnlyBinZero env f) →
      QuietBass (fs.foldl (displayFuncT env) s) (k + fs.length) := by
  induction fs with
  | nil => intro s k hq _ _; exact hq
  | cons f fs ih =>
    intro s k hq hk hall
    simp only [List.length_cons] at hk
    have h1 := quietBass_step env s f k hq (by omega) (hall f (List.mem_cons_self _ _))
    have h2 := ih _ (k + 1) h1 (by omega) (fun g hg => hall g (List.mem_cons_of_mem _ hg))
    simp only [List.foldl_cons, List.length_cons]
    have e : k + (fs.length + 1) = k + 1 + fs.length := by omega
    rw [e]
    exact h2

theorem quietBass_initState : QuietBass (initState 1024) 0 :=
  ⟨rfl, rfl, rfl, rfl, rfl, rfl⟩

theorem quietBass_wrap (env : Env) (s : State) (f : Frame)
    (hq : QuietBass s 199) (hf : OnlyBinZero env f) :
    (displayFuncT env s f).bassTriggers = 1 ∧
      (displayFuncT env s f).g_bassPulseCounter = 0 ∧
      ((displayFuncT env s f).g_bassPulses[0]?).map SoundPulse.on_ = some true ∧
      ∀ i, i ≠ 0 → i < MAX_BASS_PULSES →
        ((displayFuncT env s f).g_bassPulses[i]?).map SoundPulse.on_ = some false := by
  obtain ⟨b1, b2, -, b4⟩ := displayFuncT_bass env s f
  have hsec := bassSectionT_bin_zero env f s hq.windowSize hq.toggleBass hf
  have hit := hit_of_onlyBinZero env f hf
  have h1 := bassCheckBinT_counter env f s 0
  have h2 := bassCheckBinT_triggers env f s 0
  have h4 := bassCheckBinT_pulses env f s 0
  simp only [hit, hq.counter, hq.index, hq.triggers, hq.pulses, BASS_PULSE_STAGGER,
    Nat.reduceAdd, Nat.mod_self, and_self, if_true] at h1 h2 h4
  rw [hsec] at b1 b2 b4
  simp only at b1 b2 b4
  refine ⟨b4.trans h2, b2.trans h1, ?_, ?_⟩
  · rw [b1, drawPulses_getElem?, h4, List.getElem?_modify_eq]
    simp [MAX_BASS_PULSES, initBassPulse, updateBassPulse]
  · intro i hi hlt
    have hne : (0 : Nat) ≠ i := fun h => hi h.symm
    rw [b1, drawPulses_getElem?, h4, List.getElem?_modify_ne _ _ hne,
      List.getElem?_replicate_of_lt hlt]
    simp [defaultPulse]

/-- C3: from the initial state with N = 1024, let 200 consecutive frames have
magnitude 0.01 in bin 0 and at most the bass threshold in every other bin of
the bass scan.  Then all frame steps return; no bass trigger has fired after
k of the frames for every k < 200; after the 200th frame the stagger counter
has wrapped to 0 and exactly one bass trigger has fired; bass slot 0 is then
active and every other bass slot is inactive. -/
theorem C3_single_bin_200_frames (env : Env) (fs : List Frame) (hlen : fs.length = 200)
    (hall : ∀ f ∈ fs, OnlyBinZero env f) :
    (∀ k, k < 200 → ∃ s, runFrames env (initState 1024) (fs.take k) = some s ∧
        s.bassTriggers = 0) ∧
      ∃ t, runFrames env (initState 1024) fs = some t ∧
        t.bassTriggers = 1 ∧ t.g_bassPulseCounter = 0 ∧
        (t.g_bassPulses[0]?).map SoundPulse.on_ = some true ∧
        ∀ i, i ≠ 0 → i < MAX_BASS_PULSES →
          (t.g_bassPulses[i]?).map SoundPulse.on_ = some false := by
  have hquiet : ∀ k, k < 200 →
      QuietBass ((fs.take k).foldl (displayFuncT env) (initState 1024)) k := by
    intro k hk
    have hl : (fs.take k).length = k := by rw [List.length_take, hlen]; omega
    have := quietBass_run env (fs.take k) (initState 1024) 0 quietBass_initState
      (by rw [hl]; omega) (fun f hf => hall f (List.mem_of_mem_take hf))
    rw [hl, Nat.zero_add] at this
    exact this
  constructor
  · intro k hk
    exact ⟨_, (runFrames_eq env (fs.take k) _ (wellFormed_initState 1024)).1,
      (hquiet k hk).triggers⟩
  · refine ⟨_, (runFrames_eq env fs _ (wellFormed_initState 1024)).1, ?_⟩
    have hd : (fs.drop 199).length = 1 := by rw [List.length_drop, hlen]
    obtain ⟨g, hg⟩ := List.length_eq_one.mp hd
    have hsplit : fs = fs.take 199 ++ [g] := by
      rw [← hg]; exact (List.take_append_drop 199 fs).symm
    have hgmem : g ∈ fs := by
      rw [hsplit]; simp
    have hfold : fs.foldl (displayFuncT env) (initState 1024) =
        displayFuncT env ((fs.take 199).foldl (displayFuncT env) (initState 1024)) g := by
      conv_lhs => rw [hsplit]
      rw [List.foldl_append]
      rfl
    rw [hfold]
    exact quietBass_wrap env _ g (hquiet 199 (by omega)) (hall g hgmem)

theorem onlyBinZero_binZeroFrame : OnlyBinZero sampleEnv binZeroFrame := by
  constructor
  · norm_num [sampleEnv, binZeroFrame, abs_of_nonneg]
  · intro i _ hi
    norm_num [sampleEnv, binZeroFrame, hi]

/-- C3 at 200 copies of a frame with magnitude 0.01 in bin 0 and silence in
every other bin. -/
theorem C3_single_bin_200_frames_witness :
    (List.replicate 200 binZeroFrame).length = 200 ∧
      (∀ f ∈ List.replicate 200 binZeroFrame, OnlyBinZero sampleEnv f) ∧
      ∃ t, runFrames sampleEnv (initState 1024) (List.replicate 200 binZeroFrame) = some t ∧
        t.bassTriggers = 1 ∧ t.g_bassPulseCounter = 0 ∧
        (t.g_bassPulses[0]?).map SoundPulse.on_ = some true ∧
        ∀ i, i ≠ 0 → i < MAX_BASS_PULSES →
          (t.g_bassPulses[i]?).map SoundPulse.on_ = some false :=
  have h1 : (List.replicate 200 binZeroFrame).length = 200 := List.length_replicate _ _
  have h2 : ∀ f ∈ List.replicate 200 binZeroFrame, OnlyBinZero sampleEnv f :=
    fun _ hf => (List.eq_of_mem_replicate hf) ▸ onlyBinZero_binZeroFrame
  ⟨h1, h2, (C3_single_bin_200_frames sampleEnv (List.replicate 200 binZeroFrame) h1 h2).2⟩

/-! ## C4: silence -/

theorem midFold_all_miss (env : Env) (f : Frame) (l : List Nat) :
    ∀ s : State, (∀ i ∈ l, ¬ env.cmp_abs (f.cbuf i) > 0.0004) →
      l.foldl (midCheckBinT env f) s = s := by
  induction l with
  | nil => intro s _; rfl
  | cons x xs ih =>
    intro s h
    have hx : midCheckBinT env f s x = s := by
      unfold midCheckBinT
      rw [if_neg (h x (List.mem_cons_self _ _))]
    rw [List.foldl_cons, hx]
    exact ih s (fun i hi => h i (List.mem_cons_of_mem _ hi))

theorem bassSectionT_silent (env : Env) (f : Frame) (s : State)
    (hmiss : ∀ i ∈ bassBins s.g_windowSize, ¬ env.cmp_abs (f.cbuf i) > 0.001)
    (hoff : ∀ p ∈ s.g_bassPulses, p.on_ = false) : bassSectionT env f s = s := by
  unfold bassSectionT
  split
  · rw [bassFold_all_miss env f _ s hmiss, drawPulses_all_off _ _ _ hoff]
  · rfl

theorem midSectionT_silent (env : Env) (f : Frame) (s : State)
    (hmiss : ∀ i ∈ midBins s.g_windowSize, ¬ env.cmp_abs (f.cbuf i) > 0.0004)
    (hoff : ∀ p ∈ s.g_midPulses, p.on_ = false) : midSectionT env f s = s := by
  unfold midSectionT
  split
  · rw [midFold_all_miss env f _ s hmiss, drawPulses_all_off _ _ _ hoff]
  · rfl

theorem sameOutsideHistory_refl (s : State) : SameOutsideHistory s s := by
  constructor <;> rfl

theorem sameOutsideHistory_trans {s t u : State} (h1 : SameOutsideHistory s t)
    (h2 : SameOutsideHistory t u) : SameOutsideHistory s u := by
  constructor
  · exact h2.windowSize.trans h1.windowSize
  · exact h2.toggleBass.trans h1.toggleBass
  · exact h2.toggleMid.trans h1.toggleMid
  · exact h2.toggleFD.trans h1.toggleFD
  · exact h2.bassPulses.trans h1.bassPulses
  · exact h2.bassCounter.trans h1.bassCounter
  · exact h2.bassIndex.trans h1.bassIndex
  · exact h2.midPulses.trans h1.midPulses
  · exact h2.midCounter.trans h1.midCounter
  · exact h2.midIndex.trans h1.midIndex
  · exact h2.randCalls.trans h1.randCalls
  · exact h2.bassTriggers.trans h1.bassTriggers
  · exact h2.midTriggers.trans h1.midTriggers

theorem bassBins_lt (i : Nat) (h : i ∈ bassBins 1024) : i < 512 := by
  have : i < 20 := by simpa [bassBins] using h
  omega

theorem midBins_lt (i : Nat) (h : i ∈ midBins 1024) : i < 512 := by
  have : 21 ≤ i ∧ i < 21 + 379 := by
    have h2 : midBins 1024 = List.range' 21 379 := by simp [midBins]
    rw [h2] at h
    exact List.mem_range'_1.mp h
  omega

theorem displayFuncT_silent (env : Env) (s : State) (f : Frame)
    (hs : SameOutsideHistory (initState 1024) s)
    (hsil : ∀ i, i < 512 → env.cmp_abs (f.cbuf i) = 0) :
    SameOutsideHistory (initState 1024) (displayFuncT env s f) := by
  have hb : bassSectionT env f s = s := by
    apply bassSectionT_silent
    · intro i hi
      have hw : s.g_windowSize = 1024 := hs.windowSize
      rw [hw] at hi
      rw [hsil i (bassBins_lt i hi)]
      norm_num
    · rw [hs.bassPulses]
      exact replicate_default_off _
  have hm : midSectionT env f s = s := by
    apply midSectionT_silent
    · intro i hi
      have hw : s.g_windowSize = 1024 := hs.windowSize
      rw [hw] at hi
      rw [hsil i (midBins_lt i hi)]
      norm_num
    · rw [hs.midPulses]
      exact replicate_default_off _
  unfold displayFuncT
  rw [hb, hm]
  exact sameOutsideHistory_trans hs (historySection_same f s)

theorem runT_silent (env : Env) (fs : List Frame) :
    ∀ s : State, SameOutsideHistory (initState 1024) s →
      (∀ f ∈ fs, ∀ i, i < 512 → env.cmp_abs (f.cbuf i) = 0) →
      SameOutsideHistory (initState 1024) (fs.foldl (displayFuncT env) s) := by
  induction fs with
  | nil => intro s hs _; exact hs
  | cons f fs ih =>
    intro s hs hall
    rw [List.foldl_cons]
    exact ih _ (displayFuncT_silent env s f hs (hall f (List.mem_cons_self _ _)))
      (fun g hg => hall g (List.mem_cons_of_mem _ hg))

/-- C4: from the initial state with N = 1024, for every number of frame steps
in which each of the 512 bins has magnitude 0, the frame steps return, no bass
and no mid trigger fires, both stagger counters and both allocation indices
stay 0, and every pulse of both pools keeps the value `main` gave it
(inactive, radius 0, strokeWeight 0, depthOffset 0, colour 0.5, 0.5, 1.0). -/
theorem C4_silence_changes_nothing (env : Env) (fs : List Frame)
    (hsil : ∀ f ∈ fs, ∀ i, i < 512 → env.cmp_abs (f.cbuf i) = 0) :
    ∃ s, runFrames env (initState 1024) fs = some s ∧
      s.bassTriggers = 0 ∧ s.midTriggers = 0 ∧
      s.g_bassPulseCounter = 0 ∧ s.g_midPulseCounter = 0 ∧
      s.g_bassPulseIndex = 0 ∧ s.g_midPulseIndex = 0 ∧
      s.g_bassPulses = List.replicate MAX_BASS_PULSES
        { on_ := false, rad := 0, col := { red := 0.5, green := 0.5, blue := 1.0 },
          lineWidth := 0, transZ := 0 } ∧
      s.g_midPulses = List.replicate MAX_MID_PULSES
        { on_ := false, rad := 0, col := { red := 0.5, green := 0.5, blue := 1.0 },
          lineWidth := 0, transZ := 0 } := by
  refine ⟨_, (runFrames_eq env fs _ (wellFormed_initState 1024)).1, ?_⟩
  have h := runT_silent env fs (initState 1024) (sameOutsideHistory_refl _) hsil
  exact ⟨h.bassTriggers, h.midTriggers, h.bassCounter, h.midCounter, h.bassIndex,
    h.midIndex, h.bassPulses, h.midPulses⟩

/-- C4 at 300 silent frames. -/
theorem C4_silence_changes_nothing_witness :
    (∀ f ∈ List.replicate 300 silentFrame, ∀ i, i < 512 →
        sampleEnv.cmp_abs (f.cbuf i) = 0) ∧
      ∃ s, runFrames sampleEnv (initState 1024) (List.replicate 300 silentFrame) = some s ∧
        s.bassTriggers = 0 ∧ s.midTriggers = 0 ∧
        s.g_bassPulseCounter = 0 ∧ s.g_midPulseCounter = 0 ∧
        s.g_bassPulseIndex = 0 ∧ s.g_midPulseIndex = 0 ∧
        s.g_bassPulses = List.replicate MAX_BASS_PULSES
          { on_ := false, rad := 0, col := { red := 0.5, green := 0.5, blue := 1.0 },
            lineWidth := 0, transZ := 0 } ∧
        s.g_midPulses = List.replicate MAX_MID_PULSES
          { on_ := false, rad := 0, col := { red := 0.5, green := 0.5, blue := 1.0 },
            lineWidth := 0, transZ := 0 } :=
  have h : ∀ f ∈ List.replicate 300 silentFrame, ∀ i, i < 512 →
      sampleEnv.cmp_abs (f.cbuf i) = 0 := by
    intro f hf i _
    rw [List.eq_of_mem_replicate hf]
    norm_num [sampleEnv, silentFrame]
  ⟨h, C4_silence_changes_nothing sampleEnv (List.replicate 300 silentFrame) h⟩

/-! ## C5: what a trigger does to its pool -/

/-- C5, refuted as stated: the first bass trigger after `main` advances the
allocation index from 0 to 1, and the pulse at the new index 1 is not
initialized (it is still the inactive pulse of `main`); the pulse that was
initialized is the one at the old index 0. -/
theorem C5_new_index_not_initialized :
    ∃ t, bassTrigger sampleEnv 1.2 (initState 1024) = some t ∧
      t.g_bassPulseIndex = ((initState 1024).g_bassPulseIndex + 1) % MAX_BASS_PULSES ∧
      t.g_bassPulseIndex = 1 ∧
      t.g_bassPulses[t.g_bassPulseIndex]? = some defaultPulse ∧
      (t.g_bassPulses[t.g_bassPulseIndex]?).map SoundPulse.on_ = some false ∧
      (t.g_bassPulses[0]?).map SoundPulse.on_ = some true := by
  refine ⟨_, bassTrigger_eq sampleEnv 1.2 (initState 1024) (wellFormed_initState 1024).bassLt,
    rfl, rfl, ?_, ?_, ?_⟩
  · rfl
  · rfl
  · rfl

/-- C5, amended: for every state whose pools have their declared size and
whose allocation indices p point into their pools, a bass trigger and a mid
trigger return; each initializes (sets active, radius, colour, strokeWeight,
depthOffset of) the pulse at the current index p, leaves the pulse at the new
index (p + 1) mod capacity as it was, and advances the allocation index to
(p + 1) mod capacity (capacity 40 for the bass pool, 50 for the mid pool). -/
theorem C5_trigger_initializes_current_slot (env : Env) (g_rad : ℚ) (s : State)
    (h : WellFormed s) :
    (∃ t p0, bassTrigger env g_rad s = some t ∧
      t.g_bassPulseIndex = (s.g_bassPulseIndex + 1) % MAX_BASS_PULSES ∧
      s.g_bassPulses[s.g_bassPulseIndex]? = some p0 ∧
      t.g_bassPulses[s.g_bassPulseIndex]? =
        some (initBassPulse g_rad (env.rand s.randCalls) (env.rand (s.randCalls + 1))
          (env.rand (s.randCalls + 2)) p0) ∧
      (t.g_bassPulses[s.g_bassPulseIndex]?).map SoundPulse.on_ = some true ∧
      t.g_bassPulses[(s.g_bassPulseIndex + 1) % MAX_BASS_PULSES]? =
        s.g_bassPulses[(s.g_bassPulseIndex + 1) % MAX_BASS_PULSES]?) ∧
    (∃ t p0, midTrigger env s = some t ∧
      t.g_midPulseIndex = (s.g_midPulseIndex + 1) % MAX_MID_PULSES ∧
      s.g_midPulses[s.g_midPulseIndex]? = some p0 ∧
      t.g_midPulses[s.g_midPulseIndex]? =
        some (initMidPulse (env.rand s.randCalls) (env.rand (s.randCalls + 1))
          (env.rand (s.randCalls + 2)) p0) ∧
      (t.g_midPulses[s.g_midPulseIndex]?).map SoundPulse.on_ = some true ∧
      t.g_midPulses[(s.g_midPulseIndex + 1) % MAX_MID_PULSES]? =
        s.g_midPulses[(s.g_midPulseIndex + 1) % MAX_MID_PULSES]?) := by
  have hb := h.bassLt
  have hm := h.midLt
  have hbl : s.g_bassPulseIndex < s.g_bassPulses.length := by rw [h.bassLen]; exact hb
  have hml : s.g_midPulseIndex < s.g_midPulses.length := by rw [h.midLen]; exact hm
  have eb := List.getElem?_eq_getElem hbl
  have em := List.getElem?_eq_getElem hml
  constructor
  · refine ⟨_, s.g_bassPulses[s.g_bassPulseIndex], bassTrigger_eq env g_rad s hb, rfl, eb,
      ?_, ?_, ?_⟩
    · simp only [List.getElem?_modify_eq, eb, Option.map_eq_map, Option.map_some']
    · simp only [List.getElem?_modify_eq, eb, Option.map_eq_map, Option.map_some',
        initBassPulse]
    · have hne : s.g_bassPulseIndex ≠ (s.g_bassPulseIndex + 1) % MAX_BASS_PULSES := by
        unfold MAX_BASS_PULSES at hb ⊢
        omega
      simp only [List.getElem?_modify_ne _ _ hne]
  · refine ⟨_, s.g_midPulses[s.g_midPulseIndex], midTrigger_eq env s hm, rfl, em,
      ?_, ?_, ?_⟩
    · simp only [List.getElem?_modify_eq, em, Option.map_eq_map, Option.map_some']
    · simp only [List.getElem?_modify_eq, em, Option.map_eq_map, Option.map_some',
        initMidPulse]
    · have hne : s.g_midPulseIndex ≠ (s.g_midPulseIndex + 1) % MAX_MID_PULSES := by
        unfold MAX_MID_PULSES at hm ⊢
        omega
      simp only [List.getElem?_modify_ne _ _ hne]

/-- C5 (amended) at the state after `main`. -/
theorem C5_trigger_initializes_current_slot_witness :
    WellFormed (initState 1024) ∧
    (∃ t p0, bassTrigger sampleEnv 1.2 (initState 1024) = some t ∧
      t.g_bassPulseIndex = ((initState 1024).g_bassPulseIndex + 1) % MAX_BASS_PULSES ∧
      (initState 1024).g_bassPulses[(initState 1024).g_bassPulseIndex]? = some p0 ∧
      t.g_bassPulses[(initState 1024).g_bassPulseIndex]? =
        some (initBassPulse 1.2 (sampleEnv.rand (initState 1024).randCalls)
          (sampleEnv.rand ((initState 1024).randCalls + 1))
          (sampleEnv.rand ((initState 1024).randCalls + 2)) p0) ∧
      (t.g_bassPulses[(initState 1024).g_bassPulseIndex]?).map SoundPulse.on_ = some true ∧
      t.g_bassPulses[((initState 1024).g_bassPulseIndex + 1) % MAX_BASS_PULSES]? =
        (initState 1024).g_bassPulses[
          ((initState 1024).g_bassPulseIndex + 1) % MAX_BASS_PULSES]?) :=
  ⟨wellFormed_initState 1024,
    (C5_trigger_initializes_current_slot sampleEnv 1.2 (initState 1024)
      (wellFormed_initState 1024)).1⟩

/-! ## C6: the pools are circular -/

theorem circular_wellFormed (s : State) (h : Circular s) : WellFormed s :=
  ⟨h.bassLt, h.midLt, h.bassLen, h.midLen⟩

theorem circular_initState (n : Nat) : Circular (initState n) :=
  ⟨Nat.succ_pos _, Nat.succ_pos _, List.length_replicate _ _, List.length_replicate _ _,
    rfl, rfl⟩

theorem circular_bassCheckBinT (env : Env) (f : Frame) (s : State) (i : Nat)
    (h : Circular s) : Circular (bassCheckBinT env f s i) := by
  have hs := bassCheckBinT_same env f s i
  have hw := (bassCheckBin_eq env f s i (circular_wellFormed s h)).2
  have h2 := bassCheckBinT_triggers env f s i
  have h3 := bassCheckBinT_index env f s i
  have hb := h.bassEq
  have hl := h.bassLt
  refine ⟨hw.bassLt, hw.midLt, hw.bassLen, hw.midLen, ?_,
    by rw [hs.midIndex, hs.midTriggers]; exact h.midEq⟩
  rw [h2, h3]
  unfold MAX_BASS_PULSES at hb hl ⊢
  split <;> omega

theorem circular_midCheckBinT (env : Env) (f : Frame) (s : State) (i : Nat)
    (h : Circular s) : Circular (midCheckBinT env f s i) := by
  have hs := midCheckBinT_same env f s i
  have hw := (midCheckBin_eq env f s i (circular_wellFormed s h)).2
  have h2 := midCheckBinT_triggers env f s i
  have h3 := midCheckBinT_index env f s i
  have hb := h.midEq
  have hl := h.midLt
  refine ⟨hw.bassLt, hw.midLt, hw.bassLen, hw.midLen,
    by rw [hs.bassIndex, hs.bassTriggers]; exact h.bassEq, ?_⟩
  rw [h2, h3]
  unfold MAX_MID_PULSES at hb hl ⊢
  split <;> omega

theorem circular_keyboardFunc (k : Char) (s : State) (h : Circular s) :
    Circular (keyboardFunc k s) := by
  unfold keyboardFunc
  split_ifs
  · exact ⟨h.bassLt, h.midLt, h.bassLen, h.midLen, h.bassEq, h.midEq⟩
  · exact ⟨h.bassLt, h.midLt, h.bassLen, h.midLen, h.bassEq, h.midEq⟩
  · exact ⟨h.bassLt, h.midLt, h.bassLen, h.midLen, h.bassEq, h.midEq⟩
  · exact h

theorem circular_of_reachable (env : Env) (s : State) (hr : Reachable env s) :
    Circular s := by
  induction hr with
  | init n => exact circular_initState n
  | bassBin s t f i _ hstep ih =>
    have h := (bassCheckBin_eq env f s i (circular_wellFormed s ih)).1
    rw [h] at hstep
    rw [← Option.some.inj hstep]
    exact circular_bassCheckBinT env f s i ih
  | bassDraw s _ ih =>
    refine ⟨ih.bassLt, ih.midLt, ?_, ih.midLen, ih.bassEq, ih.midEq⟩
    simp only [drawPulses_length]
    exact ih.bassLen
  | midBin s t f i _ hstep ih =>
    have h := (midCheckBin_eq env f s i (circular_wellFormed s ih)).1
    rw [h] at hstep
    rw [← Option.some.inj hstep]
    exact circular_midCheckBinT env f s i ih
  | midDraw s _ ih =>
    refine ⟨ih.bassLt, ih.midLt, ih.bassLen, ?_, ih.bassEq, ih.midEq⟩
    simp only [drawPulses_length]
    exact ih.midLen
  | history s f _ ih =>
    have hh := historySection_same f s
    exact ⟨by rw [hh.bassIndex]; exact ih.bassLt, by rw [hh.midIndex]; exact ih.midLt,
      by rw [hh.bassPulses]; exact ih.bassLen, by rw [hh.midPulses]; exact ih.midLen,
      by rw [hh.bassIndex, hh.bassTriggers]; exact ih.bassEq,
      by rw [hh.midIndex, hh.midTriggers]; exact ih.midEq⟩
  | key s k _ ih => exact circular_keyboardFunc k s ih

theorem reachable_foldlM_bass (env : Env) (f : Frame) (l : List Nat) :
    ∀ s t : State, Reachable env s → l.foldlM (bassCheckBin env f) s = some t →
      Reachable env t := by
  induction l with
  | nil =>
    intro s t hr h
    simp only [List.foldlM_nil] at h
    rw [← Option.some.inj h]
    exact hr
  | cons x xs ih =>
    intro s t hr h
    rw [List.foldlM_cons] at h
    cases hx : bassCheckBin env f s x with
    | none => rw [hx] at h; simp at h
    | some s1 =>
      rw [hx] at h
      exact ih s1 t (Reachable.bassBin s s1 f x hr hx) h

theorem reachable_foldlM_mid (env : Env) (f : Frame) (l : List Nat) :
    ∀ s t : State, Reachable env s → l.foldlM (midCheckBin env f) s = some t →
      Reachable env t := by
  induction l with
  | nil =>
    intro s t hr h
    simp only [List.foldlM_nil] at h
    rw [← Option.some.inj h]
    exact hr
  | cons x xs ih =>
    intro s t hr h
    rw [List.foldlM_cons] at h
    cases hx : midCheckBin env f s x with
    | none => rw [hx] at h; simp at h
    | some s1 =>
      rw [hx] at h
      exact ih s1 t (Reachable.midBin s s1 f x hr hx) h

theorem reachable_bassSection (env : Env) (f : Frame) (s t : State)
    (hr : Reachable env s) (h : bassSection env f s = some t) : Reachable env t := by
  unfold bassSection at h
  split at h
  · unfold bassScan at h
    cases hx : (bassBins s.g_windowSize).foldlM (bassCheckBin env f) s with
    | none => rw [hx] at h; simp at h
    | some s1 =>
      rw [hx] at h
      simp only [Option.map_some'] at h
      rw [← Option.some.inj h]
      exact Reachable.bassDraw s1 (reachable_foldlM_bass env f _ s s1 hr hx)
  · rw [← Option.some.inj h]
    exact hr

theorem reachable_midSection (env : Env) (f : Frame) (s t : State)
    (hr : Reachable env s) (h : midSection env f s = some t) : Reachable env t := by
  unfold midSection at h
  split at h
  · unfold midScan at h
    cases hx : (midBins s.g_windowSize).foldlM (midCheckBin env f) s with
    | none => rw [hx] at h; simp at h
    | some s1 =>
      rw [hx] at h
      simp only [Option.map_some'] at h
      rw [← Option.some.inj h]
      exact Reachable.midDraw s1 (reachable_foldlM_mid env f _ s s1 hr hx)
  · rw [← Option.some.inj h]
    exact hr

theorem reachable_displayFunc (env : Env) (s t : State) (f : Frame)
    (hr : Reachable env s) (h : displayFunc env s f = some t) : Reachable env t := by
  unfold displayFunc at h
  cases hb : bassSection env f s with
  | none => rw [hb] at h; simp at h
  | some s1 =>
    rw [hb] at h
    simp only [Option.some_bind] at h
    cases hm : midSection env f s1 with
    | none => rw [hm] at h; simp at h
    | some s2 =>
      rw [hm] at h
      simp only [Option.map_some'] at h
      rw [← Option.some.inj h]
      exact Reachable.history s2 f
        (reachable_midSection env f s1 s2 (reachable_bassSection env f s s1 hr hb) hm)

theorem reachable_runFrames (env : Env) (fs : List Frame) :
    ∀ s t : State, Reachable env s → runFrames env s fs = some t → Reachable env t := by
  induction fs with
  | nil =>
    intro s t hr h
    simp only [runFrames, List.foldlM_nil] at h
    rw [← Option.some.inj h]
    exact hr
  | cons f fs ih =>
    intro s t hr h
    simp only [runFrames, List.foldlM_cons] at h
    cases hx : displayFunc env s f with
    | none => rw [hx] at h; simp at h
    | some s1 =>
      rw [hx] at h
      exact ih s1 t (reachable_displayFunc env s s1 f hr hx) h

theorem beforeReuse_spec :
    ∃ s, beforeReuse = some s ∧ Reachable sampleEnv s ∧ s.bassTriggers = 40 ∧
      s.g_bassPulseCounter = 199 := by
  have hall : ∀ f ∈ List.replicate 409 loudFrame, ∀ i ∈ bassBins 1024,
      sampleEnv.cmp_abs (f.cbuf i) > 0.001 := by
    intro f hf i _
    rw [List.eq_of_mem_replicate hf]
    norm_num [sampleEnv, loudFrame]
  obtain ⟨hrun, hwf⟩ := runFrames_eq sampleEnv (List.replicate 409 loudFrame)
    (initState 1024) (wellFormed_initState 1024)
  obtain ⟨e, c⟩ := runT_all_hit sampleEnv (List.replicate 409 loudFrame) (initState 1024)
    rfl rfl (Nat.succ_pos _) hall
  have h0 : (initState 1024).bassTriggers = 0 := rfl
  have h1 : (initState 1024).g_bassPulseCounter = 0 := rfl
  rw [h0, h1, List.length_replicate] at e
  obtain ⟨hscan, -⟩ := foldlM_eq_foldl (bassCheckBin sampleEnv loudFrame)
    (bassCheckBinT sampleEnv loudFrame) WellFormed
    (fun a x ha => bassCheckBin_eq sampleEnv loudFrame a x ha) ((bassBins 1024).take 19) _ hwf
  have hloud : ∀ i ∈ (bassBins 1024).take 19,
      sampleEnv.cmp_abs (loudFrame.cbuf i) > 0.001 := by
    intro i _
    norm_num [sampleEnv, loudFrame]
  obtain ⟨e2, c2⟩ := bassFold_all_hit sampleEnv loudFrame ((bassBins 1024).take 19) _ c hloud
  have hlen : ((bassBins 1024).take 19).length = 19 := by
    rw [List.length_take, bassBins_length]; rfl
  rw [hlen] at e2
  refine ⟨((bassBins 1024).take 19).foldl (bassCheckBinT sampleEnv loudFrame)
    ((List.replicate 409 loudFrame).foldl (displayFuncT sampleEnv) (initState 1024)),
    ?_, ?_, ?_, ?_⟩
  · unfold beforeReuse
    rw [hrun, Option.some_bind]
    exact hscan
  · exact reachable_foldlM_bass sampleEnv loudFrame _ _ _
      (reachable_runFrames sampleEnv _ _ _ (Reachable.init 1024) hrun) hscan
  · omega
  · omega

/-- C6: in every reachable state the bass allocation index lies in [0, 40)
and the mid allocation index in [0, 50).  Every iteration of a scan run from
a reachable state returns.  It fires a trigger exactly when the bin is above
the threshold and the stagger counter wraps to 0; that trigger is the k-th of
its pool, k being the trigger count after the iteration: the index advances by
exactly one modulo the capacity, slot (k - 1) mod capacity is initialized by
the assignments of the trigger, and every other slot of that pool is as it was
at the moment of the trigger.  Otherwise the trigger count, the index and the
pool are as before. -/
theorem C6_pools_are_circular (env : Env) (s : State) (hr : Reachable env s) :
    s.g_bassPulseIndex < 40 ∧ s.g_midPulseIndex < 50 ∧
    (∀ (f : Frame) (i : Nat), ∃ t, bassCheckBin env f s i = some t ∧
      ((env.cmp_abs (f.cbuf i) > 0.001 ∧ (s.g_bassPulseCounter + 1) % 200 = 0 →
        t.bassTriggers = s.bassTriggers + 1 ∧
          t.g_bassPulseIndex = (s.g_bassPulseIndex + 1) % 40 ∧
          (∃ p0, s.g_bassPulses[(t.bassTriggers - 1) % 40]? = some p0 ∧
            t.g_bassPulses[(t.bassTriggers - 1) % 40]? =
              some (initBassPulse f.g_rad (env.rand s.randCalls)
                (env.rand (s.randCalls + 1)) (env.rand (s.randCalls + 2)) p0)) ∧
          ∀ j, j ≠ (t.bassTriggers - 1) % 40 → t.g_bassPulses[j]? = s.g_bassPulses[j]?) ∧
        (¬(env.cmp_abs (f.cbuf i) > 0.001 ∧ (s.g_bassPulseCounter + 1) % 200 = 0) →
          t.bassTriggers = s.bassTriggers ∧ t.g_bassPulseIndex = s.g_bassPulseIndex ∧
            t.g_bassPulses = s.g_bassPulses))) ∧
    (∀ (f : Frame) (i : Nat), ∃ t, midCheckBin env f s i = some t ∧
      ((env.cmp_abs (f.cbuf i) > 0.0004 ∧ (s.g_midPulseCounter + 1) % 400 = 0 →
        t.midTriggers = s.midTriggers + 1 ∧
          t.g_midPulseIndex = (s.g_midPulseIndex + 1) % 50 ∧
          (∃ p0, s.g_midPulses[(t.midTriggers - 1) % 50]? = some p0 ∧
            t.g_midPulses[(t.midTriggers - 1) % 50]? =
              some (initMidPulse (env.rand s.randCalls)
                (env.rand (s.randCalls + 1)) (env.rand (s.randCalls + 2)) p0)) ∧
          ∀ j, j ≠ (t.midTriggers - 1) % 50 → t.g_midPulses[j]? = s.g_midPulses[j]?) ∧
        (¬(env.cmp_abs (f.cbuf i) > 0.0004 ∧ (s.g_midPulseCounter + 1) % 400 = 0) →
          t.midTriggers = s.midTriggers ∧ t.g_midPulseIndex = s.g_midPulseIndex ∧
            t.g_midPulses = s.g_midPulses))) := by
  have hc := circular_of_reachable env s hr
  refine ⟨hc.bassLt, hc.midLt, ?_, ?_⟩
  · intro f i
    refine ⟨_, (bassCheckBin_eq env f s i (circular_wellFormed s hc)).1, ?_, ?_⟩
    · intro hit
      have h2 := bassCheckBinT_triggers env f s i
      have h3 := bassCheckBinT_index env f s i
      have h4 := bassCheckBinT_pulses env f s i
      have hit2 : env.cmp_abs (f.cbuf i) > 0.001 ∧
          (s.g_bassPulseCounter + 1) % BASS_PULSE_STAGGER = 0 := hit
      rw [if_pos hit2] at h2 h3 h4
      have hk : (s.bassTriggers + 1 - 1) % 40 = s.g_bassPulseIndex := by
        rw [Nat.add_sub_cancel]; exact hc.bassEq.symm
      have hlen : s.g_bassPulseIndex < s.g_bassPulses.length := by
        rw [hc.bassLen]; exact hc.bassLt
      have e0 := List.getElem?_eq_getElem hlen
      refine ⟨h2, h3, ⟨s.g_bassPulses[s.g_bassPulseIndex], ?_, ?_⟩, ?_⟩
      · rw [h2, hk]; exact e0
      · rw [h2, hk, h4, List.getElem?_modify_eq, e0]; rfl
      · intro j hj
        rw [h2, hk] at hj
        rw [h4, List.getElem?_modify_ne _ _ (fun h => hj h.symm)]
    · intro hit
      have h2 := bassCheckBinT_triggers env f s i
      have h3 := bassCheckBinT_index env f s i
      have h4 := bassCheckBinT_pulses env f s i
      have hit2 : ¬(env.cmp_abs (f.cbuf i) > 0.001 ∧
          (s.g_bassPulseCounter + 1) % BASS_PULSE_STAGGER = 0) := hit
      rw [if_neg hit2] at h2 h3 h4
      exact ⟨h2, h3, h4⟩
  · intro f i
    refine ⟨_, (midCheckBin_eq env f s i (circular_wellFormed s hc)).1, ?_, ?_⟩
    · intro hit
      have h2 := midCheckBinT_triggers env f s i
      have h3 := midCheckBinT_index env f s i
      have h4 := midCheckBinT_pulses env f s i
      have hit2 : env.cmp_abs (f.cbuf i) > 0.0004 ∧
          (s.g_midPulseCounter + 1) % MID_PULSE_STAGGER = 0 := hit
      rw [if_pos hit2] at h2 h3 h4
      have hk : (s.midTriggers + 1 - 1) % 50 = s.g_midPulseIndex := by
        rw [Nat.add_sub_cancel]; exact hc.midEq.symm
      have hlen : s.g_midPulseIndex < s.g_midPulses.length := by
        rw [hc.midLen]; exact hc.midLt
      have e0 := List.getElem?_eq_getElem hlen
      refine ⟨h2, h3, ⟨s.g_midPulses[s.g_midPulseIndex], ?_, ?_⟩, ?_⟩
      · rw [h2, hk]; exact e0
      · rw [h2, hk, h4, List.getElem?_modify_eq, e0]; rfl
      · intro j hj
        rw [h2, hk] at hj
        rw [h4, List.getElem?_modify_ne _ _ (fun h => hj h.symm)]
    · intro hit
      have h2 := midCheckBinT_triggers env f s i
      have h3 := midCheckBinT_index env f s i
      have h4 := midCheckBinT_pulses env f s i
      have hit2 : ¬(env.cmp_abs (f.cbuf i) > 0.0004 ∧
          (s.g_midPulseCounter + 1) % MID_PULSE_STAGGER = 0) := hit
      rw [if_neg hit2] at h2 h3 h4
      exact ⟨h2, h3, h4⟩

/-- C6 at the second use of slot 0 of the bass pool: after 409 loud frames and
19 bins of the next bass scan the state is reachable, 40 bass triggers have
fired and the index is back at 0; bin 19 of the loud frame fires the 41st
trigger, which advances the index to 1, initializes slot 0 = (41 - 1) mod 40
again and leaves the slots 1 to 39 as they were. -/
theorem C6_pools_are_circular_witness :
    ∃ s, beforeReuse = some s ∧ Reachable sampleEnv s ∧
      s.bassTriggers = 40 ∧ s.g_bassPulseIndex = 0 ∧
      ∃ t, bassCheckBin sampleEnv loudFrame s 19 = some t ∧
        t.bassTriggers = 41 ∧ t.g_bassPulseIndex = 1 ∧
        (∃ p0, s.g_bassPulses[0]? = some p0 ∧
          t.g_bassPulses[0]? =
            some (initBassPulse loudFrame.g_rad (sampleEnv.rand s.randCalls)
              (sampleEnv.rand (s.randCalls + 1)) (sampleEnv.rand (s.randCalls + 2)) p0)) ∧
        ∀ j, j ≠ 0 → t.g_bassPulses[j]? = s.g_bassPulses[j]? := by
  obtain ⟨s, hs, hr, ht, hcnt⟩ := beforeReuse_spec
  have hloud : sampleEnv.cmp_abs (loudFrame.cbuf 19) > 0.001 := by
    norm_num [sampleEnv, loudFrame]
  have hi : s.g_bassPulseIndex = 0 := by
    have := (circular_of_reachable sampleEnv s hr).bassEq
    rw [ht] at this
    exact this
  obtain ⟨t, h1, h2, -⟩ := (C6_pools_are_circular sampleEnv s hr).2.2.1 loudFrame 19
  obtain ⟨a, b, c, d⟩ := h2 ⟨hloud, by rw [hcnt]⟩
  have ha : t.bassTriggers = 41 := by rw [a, ht]
  rw [ha] at c d
  refine ⟨s, hs, hr, ht, hi, t, h1, ha, ?_, c, d⟩
  rw [b, hi]

/-! ## C7: the radius and its cap -/

theorem updateBassPulse_rad (p : SoundPulse) :
    (updateBassPulse p).rad = if p.rad < 10 then p.rad + 0.075 else p.rad := rfl

theorem updateMidPulse_rad (p : SoundPulse) :
    (updateMidPulse p).rad = if p.rad < 10 then p.rad + 0.075 else p.rad := rfl

theorem rad_iterate_of_step (upd : SoundPulse → SoundPulse)
    (hupd : ∀ q, (upd q).rad = if q.rad < 10 then q.rad + 0.075 else q.rad) :
    ∀ (n : Nat) (p : SoundPulse), p.rad + 0.075 * (n : ℚ) < 10.075 →
      (upd^[n] p).rad = p.rad + 0.075 * (n : ℚ) := by
  intro n
  induction n with
  | zero => intro p _; simp
  | succ n ih =>
    intro p h
    push_cast at h
    have hn : (0 : ℚ) ≤ (n : ℚ) := Nat.cast_nonneg n
    have hp : p.rad < 10 := by norm_num at h ⊢; linarith
    have h1 : (upd p).rad = p.rad + 0.075 := by rw [hupd, if_pos hp]
    rw [Function.iterate_succ_apply, ih (upd p) (by rw [h1]; linarith), h1]
    push_cast
    ring

theorem rad_iterate_lt (upd : SoundPulse → SoundPulse)
    (hupd : ∀ q, (upd q).rad = if q.rad < 10 then q.rad + 0.075 else q.rad) :
    ∀ (n : Nat) (p : SoundPulse), p.rad < 10.075 → (upd^[n] p).rad < 10.075 := by
  intro n
  induction n with
  | zero => intro p h; exact h
  | succ n ih =>
    intro p h
    rw [Function.iterate_succ_apply]
    apply ih
    rw [hupd]
    split
    · norm_num at *; linarith
    · exact h

/-- C7, refuted as stated: a bass pulse triggered at the initial waveform
radius 1.2 starts at radius 2.4, which is at most 10.0, and after 102 updates
its radius is 10.05, above 10.0. -/
theorem C7_radius_exceeds_ten :
    (initBassPulse 1.2 0 0 0 defaultPulse).rad ≤ 10 ∧
      (updateBassPulse^[102] (initBassPulse 1.2 0 0 0 defaultPulse)).rad = 10.05 ∧
      10 < (updateBassPulse^[102] (initBassPulse 1.2 0 0 0 defaultPulse)).rad := by
  have h := rad_iterate_of_step updateBassPulse updateBassPulse_rad 102
    (initBassPulse 1.2 0 0 0 defaultPulse) (by norm_num [initBassPulse])
  have h0 : (initBassPulse 1.2 0 0 0 defaultPulse).rad = 2.4 := by
    norm_num [initBassPulse]
  rw [h0] at h
  refine ⟨by rw [h0]; norm_num, ?_, ?_⟩
  · rw [h]; norm_num
  · rw [h]; norm_num

/-- C7, amended: for every pulse whose radius is at most 10.0 and for every
number of per-frame updates (bass or mid), the radius stays below 10.075, one
step of 0.075 above the cap (arithmetic taken exactly). -/
theorem C7_radius_bounded (p : SoundPulse) (h : p.rad ≤ 10) (n : Nat) :
    (updateBassPulse^[n] p).rad < 10.075 ∧ (updateMidPulse^[n] p).rad < 10.075 := by
  have hlt : p.rad < 10.075 := by norm_num at *; linarith
  exact ⟨rad_iterate_lt _ updateBassPulse_rad n p hlt,
    rad_iterate_lt _ updateMidPulse_rad n p hlt⟩

/-- C7 (amended) at a freshly triggered mid pulse and 500 updates. -/
theorem C7_radius_bounded_witness :
    (initMidPulse 0 0 0 defaultPulse).rad ≤ 10 ∧
      (updateBassPulse^[500] (initMidPulse 0 0 0 defaultPulse)).rad < 10.075 ∧
      (updateMidPulse^[500] (initMidPulse 0 0 0 defaultPulse)).rad < 10.075 :=
  have h : (initMidPulse 0 0 0 defaultPulse).rad ≤ 10 := by norm_num [initMidPulse]
  ⟨h, C7_radius_bounded (initMidPulse 0 0 0 defaultPulse) h 500⟩

/-! ## C8: the colour decay -/

theorem channel_step (upd : SoundPulse → SoundPulse)
    (hupd : upd ∈ [updateBassPulse, updateMidPulse]) (ch : Colorf → ℚ)
    (hch : ch ∈ [Colorf.red, Colorf.green, Colorf.blue]) (q : SoundPulse) :
    ch (upd q).col = ch q.col - ch q.col * 0.005 := by
  simp only [List.mem_cons, List.mem_singleton, List.not_mem_nil, or_false] at hupd hch
  rcases hupd with rfl | rfl <;> rcases hch with rfl | rfl | rfl <;> rfl

theorem channel_iterate (upd : SoundPulse → SoundPulse)
    (hupd : upd ∈ [updateBassPulse, updateMidPulse]) (ch : Colorf → ℚ)
    (hch : ch ∈ [Colorf.red, Colorf.green, Colorf.blue]) (p : SoundPulse) :
    ∀ n : Nat, ch (upd^[n] p).col = ch p.col * 0.995 ^ n := by
  intro n
  induction n with
  | zero => simp
  | succ n ih =>
    rw [Function.iterate_succ_apply', channel_step upd hupd ch hch, ih, pow_succ]
    ring

/-- C8: let the three colour channels of a pulse be positive.  Under the bass
update and under the mid update, every channel c becomes c - c * 0.005 in each
update; after n updates it equals c0 * 0.995^n; it is strictly smaller than
one update before; it is never zero; and it tends to zero: it is below every
positive bound from some number of updates on (arithmetic taken exactly). -/
theorem C8_colour_decay (p : SoundPulse)
    (hpos : 0 < p.col.red ∧ 0 < p.col.green ∧ 0 < p.col.blue) :
    ∀ upd ∈ [updateBassPulse, updateMidPulse],
    ∀ ch ∈ [Colorf.red, Colorf.green, Colorf.blue],
      (∀ q : SoundPulse, ch (upd q).col = ch q.col - ch q.col * 0.005) ∧
      (∀ n : Nat, ch (upd^[n] p).col = ch p.col * 0.995 ^ n) ∧
      (∀ n : Nat, ch (upd^[n + 1] p).col < ch (upd^[n] p).col) ∧
      (∀ n : Nat, ch (upd^[n] p).col ≠ 0) ∧
      (∀ ε : ℚ, 0 < ε → ∃ N : Nat, ∀ n : Nat, N ≤ n →
        0 < ch (upd^[n] p).col ∧ ch (upd^[n] p).col < ε) := by
  intro upd hupd ch hch
  have hc : 0 < ch p.col := by
    simp only [List.mem_cons, List.mem_singleton, List.not_mem_nil, or_false] at hch
    rcases hch with rfl | rfl | rfl
    · exact hpos.1
    · exact hpos.2.1
    · exact hpos.2.2
  have hit := channel_iterate upd hupd ch hch p
  have hr0 : (0 : ℚ) < 0.995 := by norm_num
  have hr1 : (0.995 : ℚ) < 1 := by norm_num
  have hposn : ∀ n : Nat, 0 < ch (upd^[n] p).col := by
    intro n
    rw [hit n]
    exact mul_pos hc (pow_pos hr0 n)
  refine ⟨channel_step upd hupd ch hch, hit, ?_, fun n => ne_of_gt (hposn n), ?_⟩
  · intro n
    have h1 := hposn n
    rw [Function.iterate_succ_apply', channel_step upd hupd ch hch]
    nlinarith
  · intro ε hε
    obtain ⟨N, hN⟩ := exists_pow_lt_of_lt_one (div_pos hε hc) hr1
    refine ⟨N, fun n hn => ⟨hposn n, ?_⟩⟩
    rw [hit n]
    have hle : (0.995 : ℚ) ^ n ≤ 0.995 ^ N :=
      pow_le_pow_of_le_one (le_of_lt hr0) (le_of_lt hr1) hn
    calc ch p.col * 0.995 ^ n ≤ ch p.col * 0.995 ^ N :=
          mul_le_mul_of_nonneg_left hle (le_of_lt hc)
      _ < ch p.col * (ε / ch p.col) := mul_lt_mul_of_pos_left hN hc
      _ = ε := mul_div_cancel₀ ε (ne_of_gt hc)

/-- C8 at a freshly triggered bass pulse. -/
theorem C8_colour_decay_witness :
    (0 < (initBassPulse 1.2 0 0 0 defaultPulse).col.red ∧
      0 < (initBassPulse 1.2 0 0 0 defaultPulse).col.green ∧
      0 < (initBassPulse 1.2 0 0 0 defaultPulse).col.blue) ∧
    ∀ n : Nat, (updateBassPulse^[n] (initBassPulse 1.2 0 0 0 defaultPulse)).col.red =
      (initBassPulse 1.2 0 0 0 defaultPulse).col.red * 0.995 ^ n :=
  have h : 0 < (initBassPulse 1.2 0 0 0 defaultPulse).col.red ∧
      0 < (initBassPulse 1.2 0 0 0 defaultPulse).col.green ∧
      0 < (initBassPulse 1.2 0 0 0 defaultPulse).col.blue := by
    decide!
  ⟨h, (C8_colour_decay (initBassPulse 1.2 0 0 0 defaultPulse) h updateBassPulse
    (List.mem_cons_self _ _) Colorf.red (List.mem_cons_self _ _)).2.1⟩

/-! ## C9: the values a trigger assigns -/

theorem stored_fifth : ∀ k < 30,
    0.2 ≤ toFloat (toDouble (toDouble (((k : Nat) : ℚ) / 100.00) + toDouble 0.2)) ∧
      toFloat (toDouble (toDouble (((k : Nat) : ℚ) / 100.00) + toDouble 0.2)) < 0.5 := by
  decide!

theorem stored_three_tenths : ∀ k < 30,
    0.3 ≤ toFloat (toDouble (toDouble (((k : Nat) : ℚ) / 100.00) + toDouble 0.3)) ∧
      toFloat (toDouble (toDouble (((k : Nat) : ℚ) / 100.00) + toDouble 0.3)) < 0.6 := by
  decide!

theorem stored_nine_tenths : ∀ k < 10,
    15099494 / 16777216 ≤
        toFloat (toDouble (toDouble (((k : Nat) : ℚ) / 100.00) + toDouble 0.9)) ∧
      toFloat (toDouble (toDouble (((k : Nat) : ℚ) / 100.00) + toDouble 0.9)) < 1.0 := by
  decide!

theorem toFloat_nine_tenths : toFloat 0.9 = 15099494 / 16777216 := by
  decide!

theorem initBassPulse_values (g_rad : ℚ) (r1 r2 r3 : Nat) (p : SoundPulse) :
    0.2 ≤ (initBassPulse g_rad r1 r2 r3 p).col.green ∧
      (initBassPulse g_rad r1 r2 r3 p).col.green < 0.5 ∧
      15099494 / 16777216 ≤ (initBassPulse g_rad r1 r2 r3 p).col.blue ∧
      (initBassPulse g_rad r1 r2 r3 p).col.blue < 1.0 ∧
      0.3 ≤ (initBassPulse g_rad r1 r2 r3 p).col.red ∧
      (initBassPulse g_rad r1 r2 r3 p).col.red < 0.6 ∧
      (initBassPulse g_rad r1 r2 r3 p).lineWidth = 30.0 ∧
      (initBassPulse g_rad r1 r2 r3 p).on_ = true :=
  ⟨(stored_fifth (r1 % 30) (Nat.mod_lt _ (by decide))).1,
    (stored_fifth (r1 % 30) (Nat.mod_lt _ (by decide))).2,
    (stored_nine_tenths (r2 % 10) (Nat.mod_lt _ (by decide))).1,
    (stored_nine_tenths (r2 % 10) (Nat.mod_lt _ (by decide))).2,
    (stored_three_tenths (r3 % 30) (Nat.mod_lt _ (by decide))).1,
    (stored_three_tenths (r3 % 30) (Nat.mod_lt _ (by decide))).2, rfl, rfl⟩

theorem initMidPulse_values (r1 r2 r3 : Nat) (p : SoundPulse) :
    0.2 ≤ (initMidPulse r1 r2 r3 p).col.green ∧
      (initMidPulse r1 r2 r3 p).col.green < 0.5 ∧
      15099494 / 16777216 ≤ (initMidPulse r1 r2 r3 p).col.red ∧
      (initMidPulse r1 r2 r3 p).col.red < 1.0 ∧
      0.3 ≤ (initMidPulse r1 r2 r3 p).col.blue ∧
      (initMidPulse r1 r2 r3 p).col.blue < 0.6 ∧
      (initMidPulse r1 r2 r3 p).rad = 0.25 ∧
      (initMidPulse r1 r2 r3 p).lineWidth = 5.0 ∧
      (initMidPulse r1 r2 r3 p).on_ = true :=
  ⟨(stored_fifth (r1 % 30) (Nat.mod_lt _ (by decide))).1,
    (stored_fifth (r1 % 30) (Nat.mod_lt _ (by decide))).2,
    (stored_nine_tenths (r2 % 10) (Nat.mod_lt _ (by decide))).1,
    (stored_nine_tenths (r2 % 10) (Nat.mod_lt _ (by decide))).2,
    (stored_three_tenths (r3 % 30) (Nat.mod_lt _ (by decide))).1,
    (stored_three_tenths (r3 % 30) (Nat.mod_lt _ (by decide))).2, rfl, rfl, rfl⟩

/-- C9, refuted as stated: when `rand()` returns 0 (or any multiple of 10) for
the blue channel, the bass trigger after `main` stores blue =
15099494 / 16777216 = 0.89999997615814208984375 in slot 0, the `float` nearest
to 0.9, which is below 0.9; the mid trigger stores the same value as red. -/
theorem C9_stored_value_below_bound :
    (∃ (t : State) (p : SoundPulse), bassTrigger zeroRandEnv 1.2 (initState 1024) = some t ∧
      t.g_bassPulses[0]? = some p ∧ p.col.blue = 15099494 / 16777216 ∧
      p.col.blue = toFloat 0.9 ∧ p.col.blue < (0.9 : ℚ)) ∧
    (∃ (t : State) (p : SoundPulse), midTrigger zeroRandEnv (initState 1024) = some t ∧
      t.g_midPulses[0]? = some p ∧ p.col.red = 15099494 / 16777216 ∧
      p.col.red = toFloat 0.9 ∧ p.col.red < (0.9 : ℚ)) := by
  have hb : (initBassPulse 1.2 0 0 0 defaultPulse).col.blue = 15099494 / 16777216 := by
    decide!
  have hm : (initMidPulse 0 0 0 defaultPulse).col.red = 15099494 / 16777216 := by
    decide!
  have h9 : (15099494 / 16777216 : ℚ) < 0.9 := by norm_num
  constructor
  · refine ⟨_, initBassPulse 1.2 0 0 0 defaultPulse,
      bassTrigger_eq zeroRandEnv 1.2 (initState 1024) (wellFormed_initState 1024).bassLt,
      rfl, hb, hb.trans toFloat_nine_tenths.symm, lt_of_eq_of_lt hb h9⟩
  · refine ⟨_, initMidPulse 0 0 0 defaultPulse,
      midTrigger_eq zeroRandEnv (initState 1024) (wellFormed_initState 1024).midLt,
      rfl, hm, hm.trans toFloat_nine_tenths.symm, lt_of_eq_of_lt hm h9⟩

/-- C9, amended: for every triple r1, r2, r3 of results of `rand()` and every
state whose pools have their declared size and whose allocation indices point
into them, a bass trigger returns and stores in its slot green in [0.2, 0.5),
blue in [0.9f, 1.0), red in [0.3, 0.6), strokeWeight 30.0 and active = true,
and a mid trigger returns and stores green in [0.2, 0.5), red in [0.9f, 1.0),
blue in [0.3, 0.6), radius 0.25, strokeWeight 5.0 and active = true, where
0.9f = 15099494 / 16777216 = 0.89999997615814208984375 is the `float` nearest
to 0.9; the channels are the `float` values the source stores. -/
theorem C9_trigger_values_stored (env : Env) (g_rad : ℚ) (s : State) (h : WellFormed s) :
    (∃ (t : State) (p : SoundPulse), bassTrigger env g_rad s = some t ∧
      t.g_bassPulses[s.g_bassPulseIndex]? = some p ∧
      0.2 ≤ p.col.green ∧ p.col.green < 0.5 ∧
      15099494 / 16777216 ≤ p.col.blue ∧ p.col.blue < 1.0 ∧
      0.3 ≤ p.col.red ∧ p.col.red < 0.6 ∧
      p.lineWidth = 30.0 ∧ p.on_ = true) ∧
    (∃ (t : State) (p : SoundPulse), midTrigger env s = some t ∧
      t.g_midPulses[s.g_midPulseIndex]? = some p ∧
      0.2 ≤ p.col.green ∧ p.col.green < 0.5 ∧
      15099494 / 16777216 ≤ p.col.red ∧ p.col.red < 1.0 ∧
      0.3 ≤ p.col.blue ∧ p.col.blue < 0.6 ∧
      p.rad = 0.25 ∧ p.lineWidth = 5.0 ∧ p.on_ = true) ∧
    toFloat 0.9 = 15099494 / 16777216 := by
  have hbl : s.g_bassPulseIndex < s.g_bassPulses.length := by rw [h.bassLen]; exact h.bassLt
  have hml : s.g_midPulseIndex < s.g_midPulses.length := by rw [h.midLen]; exact h.midLt
  refine ⟨⟨_, _, bassTrigger_eq env g_rad s h.bassLt, ?_, initBassPulse_values g_rad
      (env.rand s.randCalls) (env.rand (s.randCalls + 1)) (env.rand (s.randCalls + 2))
      s.g_bassPulses[s.g_bassPulseIndex]⟩,
    ⟨_, _, midTrigger_eq env s h.midLt, ?_, initMidPulse_values
      (env.rand s.randCalls) (env.rand (s.randCalls + 1)) (env.rand (s.randCalls + 2))
      s.g_midPulses[s.g_midPulseIndex]⟩, toFloat_nine_tenths⟩
  · simp only [bassTriggerT, List.getElem?_modify_eq, List.getElem?_eq_getElem hbl,
      Option.map_eq_map, Option.map_some']
  · simp only [midTriggerT, List.getElem?_modify_eq, List.getElem?_eq_getElem hml,
      Option.map_eq_map, Option.map_some']

/-- C9 (amended) at the state after `main`, with the generator that returns
0, 1, 2, ... -/
theorem C9_trigger_values_stored_witness :
    WellFormed (initState 1024) ∧
    ∃ (t : State) (p : SoundPulse), bassTrigger sampleEnv 1.2 (initState 1024) = some t ∧
      t.g_bassPulses[(initState 1024).g_bassPulseIndex]? = some p ∧
      0.2 ≤ p.col.green ∧ p.col.green < 0.5 ∧
      15099494 / 16777216 ≤ p.col.blue ∧ p.col.blue < 1.0 ∧
      0.3 ≤ p.col.red ∧ p.col.red < 0.6 ∧
      p.lineWidth = 30.0 ∧ p.on_ = true :=
  ⟨wellFormed_initState 1024,
    (C9_trigger_values_stored sampleEnv 1.2 (initState 1024) (wellFormed_initState 1024)).1⟩

/-! ## C10: length and head of the spectrum history -/

theorem saveHistory_nHistoryStates (c : Nat → complex) (s : State) :
    (saveHistory c s).g_nHistoryStates =
      if s.g_nHistoryStates < MAX_STATES then s.g_nHistoryStates + 1
      else s.g_nHistoryStates := rfl

theorem saveHistory_windowSize (c : Nat → complex) (s : State) :
    (saveHistory c s).g_windowSize = s.g_windowSize := rfl

theorem shiftHistory_length (n : Nat) :
    ∀ (i : Nat) (h : List (List complex)), (shiftHistory n i h).length = h.length := by
  intro i
  induction i with
  | zero => intro h; rfl
  | succ i ih =>
    intro h
    unfold shiftHistory
    rw [ih, List.length_set]

theorem saveHistory_history_length (c : Nat → complex) (s : State) :
    (saveHistory c s).g_FDBufHistory.length = s.g_FDBufHistory.length := by
  unfold saveHistory
  simp only [List.length_set, shiftHistory_length]

theorem memcpy_getElem? (dst : List complex) (c : Nat → complex) (n k : Nat) (hk : k < n) :
    (memcpy dst ((List.range n).map c) n)[k]? = some (c k) := by
  unfold memcpy
  have hl : k < (((List.range n).map c).take n).length := by
    simp only [List.length_take, List.length_map, List.length_range, Nat.min_self]
    exact hk
  rw [List.getElem?_append_left hl, List.getElem?_take_of_lt hk, List.getElem?_map,
    List.getElem?_range hk]
  rfl

theorem saveHistory_head (c : Nat → complex) (s : State)
    (hlen : 0 < s.g_FDBufHistory.length) :
    ∃ e, (saveHistory c s).g_FDBufHistory[0]? = some e ∧
      ∀ k, k < s.g_windowSize / 2 → e[k]? = some (c k) := by
  have hl : 0 < (shiftHistory (s.g_windowSize / 2) (s.g_nHistoryStates - 1)
      s.g_FDBufHistory).length := by
    rw [shiftHistory_length]; exact hlen
  refine ⟨_, List.getElem?_set_self hl, ?_⟩
  intro k hk
  exact memcpy_getElem? _ c _ k hk

theorem pushAll_history_length (cs : List (Nat → complex)) :
    ∀ s : State, (pushAll s cs).g_FDBufHistory.length = s.g_FDBufHistory.length := by
  induction cs with
  | nil => intro s; rfl
  | cons c cs ih =>
    intro s
    simp only [pushAll, List.foldl_cons] at ih ⊢
    rw [ih, saveHistory_history_length]

theorem pushAll_windowSize (cs : List (Nat → complex)) :
    ∀ s : State, (pushAll s cs).g_windowSize = s.g_windowSize := by
  induction cs with
  | nil => intro s; rfl
  | cons c cs ih =>
    intro s
    simp only [pushAll, List.foldl_cons] at ih ⊢
    rw [ih, saveHistory_windowSize]

theorem pushAll_nHistoryStates (cs : List (Nat → complex)) :
    ∀ s : State, s.g_nHistoryStates ≤ 61 →
      (pushAll s cs).g_nHistoryStates = min (s.g_nHistoryStates + cs.length) 61 := by
  induction cs with
  | nil => intro s h; simp [pushAll, h]
  | cons c cs ih =>
    intro s h
    have h1 := saveHistory_nHistoryStates c s
    simp only [MAX_STATES] at h1
    have h2 : (saveHistory c s).g_nHistoryStates ≤ 61 := by
      rw [h1]; split <;> omega
    have h3 := ih (saveHistory c s) h2
    simp only [pushAll, List.foldl_cons, List.length_cons] at h3 ⊢
    rw [h3, h1]
    split <;> omega

theorem pushAll_concat (cs : List (Nat → complex)) (c : Nat → complex) (s : State) :
    pushAll s (cs ++ [c]) = saveHistory c (pushAll s cs) := by
  simp only [pushAll, List.foldl_append, List.foldl_cons, List.foldl_nil]

/-- C10: after m >= 1 pushes into the fresh history of the state `main` leaves
behind (H = 61, any frame size), the logical length `g_nHistoryStates` is
min(m, 61), hence at most 61, and the history has an entry at index 0 that
holds, in each of its N/2 bins, the most recently pushed spectrum. -/
theorem C10_history_length_and_head (bufferFrames : Nat) (cs : List (Nat → complex))
    (hne : cs ≠ []) :
    (pushAll (initState bufferFrames) cs).g_nHistoryStates = min cs.length 61 ∧
      (pushAll (initState bufferFrames) cs).g_nHistoryStates ≤ MAX_STATES ∧
      ∃ e, (pushAll (initState bufferFrames) cs).g_FDBufHistory[0]? = some e ∧
        ∀ k, k < bufferFrames / 2 → e[k]? = some (cs.getLast hne k) := by
  have hn := pushAll_nHistoryStates cs (initState bufferFrames) (Nat.zero_le _)
  have h0 : (initState bufferFrames).g_nHistoryStates = 0 := rfl
  rw [h0, Nat.zero_add] at hn
  refine ⟨hn, ?_, ?_⟩
  · rw [hn]; exact Nat.min_le_right _ _
  · have hsplit := List.dropLast_append_getLast hne
    have hpush : pushAll (initState bufferFrames) cs =
        saveHistory (cs.getLast hne) (pushAll (initState bufferFrames) cs.dropLast) := by
      conv_lhs => rw [← hsplit]
      exact pushAll_concat _ _ _
    have hlen : 0 < (pushAll (initState bufferFrames) cs.dropLast).g_FDBufHistory.length := by
      rw [pushAll_history_length]
      simp [initState, MAX_STATES]
    obtain ⟨e, he, hbins⟩ := saveHistory_head (cs.getLast hne) _ hlen
    rw [pushAll_windowSize] at hbins
    exact ⟨e, by rw [hpush]; exact he, hbins⟩

/-- C10 at 62 pushes of one spectrum into the fresh history for N = 1024. -/
theorem C10_history_length_and_head_witness :
    List.replicate 62 loudFrame.cbuf ≠ [] ∧
      (pushAll (initState 1024) (List.replicate 62 loudFrame.cbuf)).g_nHistoryStates =
        min (List.replicate 62 loudFrame.cbuf).length 61 ∧
      (pushAll (initState 1024) (List.replicate 62 loudFrame.cbuf)).g_nHistoryStates
        ≤ MAX_STATES :=
  have h : List.replicate 62 loudFrame.cbuf ≠ [] := by simp
  ⟨h, (C10_history_length_and_head 1024 (List.replicate 62 loudFrame.cbuf) h).1,
    (C10_history_length_and_head 1024 (List.replicate 62 loudFrame.cbuf) h).2.1⟩

/-! ## C13 and C14: the bins of the two scans -/

theorem mem_bassBins (k : Nat) : k ∈ bassBins 1024 ↔ k < 20 := by
  simp [bassBins]

theorem mem_midBins (k : Nat) : k ∈ midBins 1024 ↔ 21 ≤ k ∧ k < 400 := by
  have h : midBins 1024 = List.range' 21 379 := by simp [midBins]
  rw [h, List.mem_range'_1]

/-- C13, refuted as stated: for N = 1024, bin 20 satisfies 0 <= 20 < 0.04 * (N/2)
= 20.48, and the bass scan does not visit it. -/
theorem C13_bin_twenty_not_scanned :
    (0 : ℚ) ≤ ((20 : Nat) : ℚ) ∧ ((20 : Nat) : ℚ) < 0.04 * ((1024 : ℚ) / 2) ∧
      20 ∉ bassBins 1024 := by
  refine ⟨by norm_num, by norm_num, ?_⟩
  rw [mem_bassBins]
  omega

/-- C13, amended: for N = 1024 (512 bins), the set of bins the bass scan
compares against the 0.001 threshold is exactly the set of integer bins k with
0 <= k < ((N/2) div 100) * 4, that is k < 20. -/
theorem C13_bass_scan_bins :
    ((1024 / 2) / 100) * 4 = 20 ∧
      ∀ k : Nat, k ∈ bassBins 1024 ↔ k < ((1024 / 2) / 100) * 4 := by
  refine ⟨by decide, ?_⟩
  intro k
  rw [mem_bassBins]

/-- C14, refuted as stated: for N = 1024, the mid scan visits bin 21, which is
below 0.04 * (N/2) + 1 = 21.48, and it does not visit bin 400, which lies in
[0.04 * (N/2) + 1, 0.80 * (N/2)) = [21.48, 409.6). -/
theorem C14_mid_scan_differs :
    (21 ∈ midBins 1024 ∧ ¬ ((0.04 : ℚ) * ((1024 : ℚ) / 2) + 1 ≤ ((21 : Nat) : ℚ))) ∧
      (400 ∉ midBins 1024 ∧ (0.04 : ℚ) * ((1024 : ℚ) / 2) + 1 ≤ ((400 : Nat) : ℚ) ∧
        ((400 : Nat) : ℚ) < 0.80 * ((1024 : ℚ) / 2)) := by
  refine ⟨⟨?_, by norm_num⟩, ?_, by norm_num, by norm_num⟩
  · rw [mem_midBins]; omega
  · rw [mem_midBins]; omega

/-- C14, amended: for N = 1024 (512 bins), the set of bins the mid scan
compares against the 0.0004 threshold is exactly the set of integer bins k with
((N/2) div 100) * 4 + 1 <= k < ((N/2) div 100) * 80, that is 21 <= k < 400, and
it is disjoint from the bass scan's set of bins. -/
theorem C14_mid_scan_bins :
    (1 + ((1024 / 2) / 100) * 4 = 21 ∧ ((1024 / 2) / 100) * 80 = 400) ∧
      (∀ k : Nat, k ∈ midBins 1024 ↔
        1 + ((1024 / 2) / 100) * 4 ≤ k ∧ k < ((1024 / 2) / 100) * 80) ∧
      ∀ k : Nat, ¬ (k ∈ bassBins 1024 ∧ k ∈ midBins 1024) := by
  refine ⟨⟨by decide, by decide⟩, ?_, ?_⟩
  · intro k
    rw [mem_midBins]
  · intro k
    rw [mem_bassBins, mem_midBins]
    omega

/-! ## C17: how far the radius grows -/

theorem rad_step_of_mem (upd : SoundPulse → SoundPulse)
    (hupd : upd ∈ [updateBassPulse, updateMidPulse]) (q : SoundPulse) :
    (upd q).rad = if q.rad < 10 then q.rad + 0.075 else q.rad := by
  simp only [List.mem_cons, List.mem_singleton, List.not_mem_nil, or_false] at hupd
  rcases hupd with rfl | rfl <;> rfl

theorem rad_iterate_stable (upd : SoundPulse → SoundPulse)
    (hupd : ∀ q, (upd q).rad = if q.rad < 10 then q.rad + 0.075 else q.rad)
    (q : SoundPulse) (hq : 10 ≤ q.rad) : ∀ m : Nat, (upd^[m] q).rad = q.rad := by
  intro m
  induction m with
  | zero => rfl
  | succ m ih =>
    rw [Function.iterate_succ_apply', hupd, ih, if_neg (not_lt.mpr hq)]

/-- C17: let a pulse have a radius below 10.075.  Under the bass update and
under the mid update, for every number of updates the radius stays strictly
below 10.075 and never decreases, and once it is at or above 10 it no longer
changes.  If the radius starts at r0 < 10, it is r0 + 0.075 * K from K updates
on, K being the ceiling of (10 - r0) / 0.075; this final value is at least 10,
and it is greater than 10.0 whenever 10 - r0 is not a multiple of 0.075
(arithmetic taken exactly). -/
theorem C17_radius_overshoot (p : SoundPulse) (h : p.rad < 10.075) :
    ∀ upd ∈ [updateBassPulse, updateMidPulse],
      (∀ n : Nat, (upd^[n] p).rad < 10.075) ∧
      (∀ n : Nat, (upd^[n] p).rad ≤ (upd^[n + 1] p).rad) ∧
      (∀ n m : Nat, 10 ≤ (upd^[n] p).rad → (upd^[n + m] p).rad = (upd^[n] p).rad) ∧
      (p.rad < 10 →
        (∀ n : Nat, ⌈(10 - p.rad) / 0.075⌉₊ ≤ n →
          (upd^[n] p).rad = p.rad + 0.075 * (⌈(10 - p.rad) / 0.075⌉₊ : ℚ)) ∧
        10 ≤ p.rad + 0.075 * (⌈(10 - p.rad) / 0.075⌉₊ : ℚ) ∧
        ((¬ ∃ k : Nat, 10 - p.rad = 0.075 * (k : ℚ)) →
          10 < p.rad + 0.075 * (⌈(10 - p.rad) / 0.075⌉₊ : ℚ))) := by
  intro upd hmem
  have hupd := rad_step_of_mem upd hmem
  refine ⟨fun n => rad_iterate_lt upd hupd n p h, ?_, ?_, ?_⟩
  · intro n
    rw [Function.iterate_succ_apply', hupd]
    split
    · norm_num
    · exact le_refl _
  · intro n m hn
    rw [Nat.add_comm, Function.iterate_add_apply]
    exact rad_iterate_stable upd hupd _ hn m
  · intro hlt
    have hx : (0 : ℚ) ≤ (10 - p.rad) / 0.075 := by
      apply div_nonneg
      · linarith
      · norm_num
    have hle : (10 - p.rad) / 0.075 ≤ (⌈(10 - p.rad) / 0.075⌉₊ : ℚ) := Nat.le_ceil _
    have hlt1 : (⌈(10 - p.rad) / 0.075⌉₊ : ℚ) < (10 - p.rad) / 0.075 + 1 :=
      Nat.ceil_lt_add_one hx
    have hmul : (10 - p.rad) / 0.075 * 0.075 = 10 - p.rad := by
      field_simp
    have hge : 10 ≤ p.rad + 0.075 * (⌈(10 - p.rad) / 0.075⌉₊ : ℚ) := by
      nlinarith
    have hup : p.rad + 0.075 * (⌈(10 - p.rad) / 0.075⌉₊ : ℚ) < 10.075 := by
      norm_num at hmul hlt1 ⊢
      nlinarith
    have hK := rad_iterate_of_step upd hupd ⌈(10 - p.rad) / 0.075⌉₊ p hup
    refine ⟨?_, hge, ?_⟩
    · intro n hn
      obtain ⟨m, rfl⟩ := Nat.exists_eq_add_of_le hn
      rw [Nat.add_comm, Function.iterate_add_apply]
      rw [rad_iterate_stable upd hupd _ (by rw [hK]; exact hge) m, hK]
    · intro hnot
      have hne : (10 - p.rad) / 0.075 ≠ (⌈(10 - p.rad) / 0.075⌉₊ : ℚ) := by
        intro he
        apply hnot
        refine ⟨⌈(10 - p.rad) / 0.075⌉₊, ?_⟩
        rw [← he, mul_comm, hmul]
      have hstrict : (10 - p.rad) / 0.075 < (⌈(10 - p.rad) / 0.075⌉₊ : ℚ) :=
        lt_of_le_of_ne hle hne
      nlinarith

/-- C17 at a freshly triggered bass pulse (radius 2.4). -/
theorem C17_radius_overshoot_witness :
    (initBassPulse 1.2 0 0 0 defaultPulse).rad < 10.075 ∧
      ∀ n : Nat, (updateBassPulse^[n] (initBassPulse 1.2 0 0 0 defaultPulse)).rad < 10.075 :=
  have h : (initBassPulse 1.2 0 0 0 defaultPulse).rad < 10.075 := by
    norm_num [initBassPulse]
  ⟨h, (C17_radius_overshoot (initBassPulse 1.2 0 0 0 defaultPulse) h updateBassPulse
    (List.mem_cons_self _ _)).1⟩

/-! ## C16: the audio callback -/

theorem callme_fold (input : Nat → ℚ) :
    ∀ (n : Nat) (buf out : List ℚ),
      (List.range n).foldl
          (fun (acc : List ℚ × List ℚ) i => (acc.1.set i (input i), acc.2.set i 0))
          (buf, out) =
        ((List.range n).foldl (fun l i => l.set i (input i)) buf,
          (List.range n).foldl (fun l i => l.set i 0) out) := by
  intro n
  induction n with
  | zero => intro buf out; rfl
  | succ n ih =>
    intro buf out
    simp only [List.range_succ, List.foldl_append, List.foldl_cons, List.foldl_nil, ih]

theorem fill_getElem? (v : Nat → ℚ) :
    ∀ (n : Nat) (l : List ℚ) (i : Nat),
      ((List.range n).foldl (fun l i => l.set i (v i)) l)[i]? =
        if i < n then (l[i]?).map (fun _ => v i) else l[i]? := by
  intro n
  induction n with
  | zero => intro l i; simp
  | succ n ih =>
    intro l i
    simp only [List.range_succ, List.foldl_append, List.foldl_cons, List.foldl_nil]
    rw [List.getElem?_set, ih]
    by_cases hi : n = i
    · subst hi
      simp only [if_true, Nat.lt_irrefl, if_false, Nat.lt_succ_self]
      have hlen : ((List.range n).foldl (fun l i => l.set i (v i)) l).length = l.length := by
        clear ih
        induction n generalizing l with
        | zero => rfl
        | succ m ihm =>
          simp only [List.range_succ, List.foldl_append, List.foldl_cons, List.foldl_nil,
            List.length_set]
          exact ihm l
      rw [hlen]
      by_cases hl : n < l.length
      · simp [hl, List.getElem?_eq_getElem hl]
      · simp [hl, List.getElem?_eq_none (not_lt.mp hl)]
    · have hlt : (i < n + 1) ↔ (i < n) := by omega
      simp only [hi, if_false, hlt]

theorem callme_buffer (g : Globals) (out : List ℚ) (input : Nat → ℚ) (n : Nat) :
    (callme g out input n).globals.buffers.g_buffer =
      (List.range n).foldl (fun l i => l.set i (input i)) g.buffers.g_buffer := by
  simp only [callme, callme_fold]

theorem callme_output (g : Globals) (out : List ℚ) (input : Nat → ℚ) (n : Nat) :
    (callme g out input n).outputBuffer =
      (List.range n).foldl (fun l i => l.set i 0) out := by
  simp only [callme, callme_fold]

/-- C16: for every input block and every frame count that exceeds neither the
size of the capture buffer nor that of the output buffer, the audio callback
copies the input verbatim (capture buffer sample i equals input sample i for
every i < frameCount), writes 0 to output sample i for every i < frameCount,
leaves the capture buffer samples at indices >= frameCount unchanged, touches
neither the pulse, counter and history state nor the window and the FFT
buffer, and returns 0. -/
theorem C16_callme_copies_input (g : Globals) (out : List ℚ) (input : Nat → ℚ)
    (numFrames : Nat) (hb : numFrames ≤ g.buffers.g_buffer.length)
    (ho : numFrames ≤ out.length) :
    (∀ i, i < numFrames →
        (callme g out input numFrames).globals.buffers.g_buffer[i]? = some (input i)) ∧
      (∀ i, i < numFrames → (callme g out input numFrames).outputBuffer[i]? = some 0) ∧
      (∀ i, numFrames ≤ i →
        (callme g out input numFrames).globals.buffers.g_buffer[i]? =
          g.buffers.g_buffer[i]?) ∧
      (callme g out input numFrames).globals.pipeline = g.pipeline ∧
      (callme g out input numFrames).globals.buffers.g_window = g.buffers.g_window ∧
      (callme g out input numFrames).globals.buffers.g_fftBuf = g.buffers.g_fftBuf ∧
      (callme g out input numFrames).ret = 0 := by
  refine ⟨?_, ?_, ?_, rfl, rfl, rfl, rfl⟩
  · intro i hi
    have hl : i < g.buffers.g_buffer.length := by omega
    rw [callme_buffer, fill_getElem?, if_pos hi, List.getElem?_eq_getElem hl]
    rfl
  · intro i hi
    have hl : i < out.length := by omega
    rw [callme_output, fill_getElem? (fun _ => 0), if_pos hi, List.getElem?_eq_getElem hl]
    rfl
  · intro i hi
    rw [callme_buffer, fill_getElem?, if_neg (by omega)]

/-- C16 at the globals after `main` for N = 1024 and a frame of 1024 samples
of value 1. -/
theorem C16_callme_copies_input_witness :
    1024 ≤ (initGlobals 1024 []).buffers.g_buffer.length ∧
      1024 ≤ (List.replicate 1024 (0 : ℚ)).length ∧
      (∀ i, i < 1024 →
        (callme (initGlobals 1024 []) (List.replicate 1024 0) (fun _ => 1)
          1024).globals.buffers.g_buffer[i]? = some 1) ∧
      (callme (initGlobals 1024 []) (List.replicate 1024 0) (fun _ => 1) 1024).ret = 0 :=
  have h1 : 1024 ≤ (initGlobals 1024 []).buffers.g_buffer.length :=
    (List.length_replicate 1024 (0 : ℚ)).ge
  have h2 : 1024 ≤ (List.replicate 1024 (0 : ℚ)).length :=
    (List.length_replicate 1024 (0 : ℚ)).ge
  ⟨h1, h2,
    (C16_callme_copies_input (initGlobals 1024 []) (List.replicate 1024 0) (fun _ => 1)
      1024 h1 h2).1,
    (C16_callme_copies_input (initGlobals 1024 []) (List.replicate 1024 0) (fun _ => 1)
      1024 h1 h2).2.2.2.2.2.2⟩

/-! ## C15: the window is applied to the capture buffer itself -/

theorem apply_window_sized (data window : List ℚ) (n : Nat) (hd : data.length = n)
    (hw : window.length = n) :
    apply_window data window n = List.zipWith (fun x w => x * w) data window := by
  unfold apply_window
  rw [List.take_of_length_le (le_of_eq hd), List.take_of_length_le (le_of_eq hw),
    List.drop_of_length_le (le_of_eq hd), List.append_nil]

theorem windowAndCopy_sized (g : Globals) (h : BuffersSized g) :
    (windowAndCopy g).buffers.g_buffer =
        List.zipWith (fun x w => x * w) g.buffers.g_buffer g.buffers.g_window ∧
      (windowAndCopy g).buffers.g_fftBuf =
        List.zipWith (fun x w => x * w) g.buffers.g_buffer g.buffers.g_window ∧
      BuffersSized (windowAndCopy g) := by
  have ha := apply_window_sized g.buffers.g_buffer g.buffers.g_window
    g.pipeline.g_windowSize (by rw [h.buffer, h.windowSize]) (by rw [h.window, h.windowSize])
  have hl : (List.zipWith (fun x w => x * w) g.buffers.g_buffer g.buffers.g_window).length =
      g.buffers.g_bufferSize := by
    rw [List.length_zipWith, h.buffer, h.window, Nat.min_self]
  have hf : (windowAndCopy g).buffers.g_fftBuf =
      List.zipWith (fun x w => x * w) g.buffers.g_buffer g.buffers.g_window := by
    simp only [windowAndCopy, ha]
    rw [List.take_of_length_le (le_of_eq hl), List.drop_of_length_le (le_of_eq h.fftBuf),
      List.append_nil]
  have hb : (windowAndCopy g).buffers.g_buffer =
      List.zipWith (fun x w => x * w) g.buffers.g_buffer g.buffers.g_window := by
    simp only [windowAndCopy, ha]
  refine ⟨hb, hf, ?_⟩
  constructor
  · rw [hb]; exact hl
  · rw [hf]; exact hl
  · exact h.window
  · exact h.windowSize

theorem displayFuncFull_buffer (env : Env) (rfft : List ℚ → Nat → List ℚ) (g_rad : ℚ)
    (g : Globals) (hb : g.buffers.g_buffer.length = g.pipeline.g_windowSize)
    (hwin : g.buffers.g_window.length = g.pipeline.g_windowSize)
    (hw : WellFormed g.pipeline) :
    ∃ t, displayFuncFull env rfft g_rad g = some t ∧
      t.buffers.g_buffer =
        List.zipWith (fun x w => x * w) g.buffers.g_buffer g.buffers.g_window ∧
      t.buffers.g_window = g.buffers.g_window ∧
      t.buffers.g_bufferSize = g.buffers.g_bufferSize ∧
      t.pipeline.g_windowSize = g.pipeline.g_windowSize ∧
      WellFormed t.pipeline := by
  have ha := apply_window_sized g.buffers.g_buffer g.buffers.g_window
    g.pipeline.g_windowSize hb hwin
  have hp : (windowAndCopy g).pipeline = g.pipeline := rfl
  obtain ⟨d1, d2⟩ := displayFunc_eq env g.pipeline
    { cbuf := cbufOf (rfft (windowAndCopy g).buffers.g_fftBuf (g.pipeline.g_windowSize / 2)),
      g_rad := g_rad } hw
  refine ⟨{ buffers := { (windowAndCopy g).buffers with
      g_fftBuf := rfft (windowAndCopy g).buffers.g_fftBuf (g.pipeline.g_windowSize / 2) }
            pipeline := displayFuncT env g.pipeline
              { cbuf := cbufOf
                  (rfft (windowAndCopy g).buffers.g_fftBuf (g.pipeline.g_windowSize / 2)),
                g_rad := g_rad } }, ?_, ?_, ?_, ?_, ?_, ?_⟩
  · unfold displayFuncFull
    simp only [hp, d1, Option.map_some']
  · simp only [windowAndCopy, ha]
  · rfl
  · rfl
  · exact (displayFuncT_config env g.pipeline _).1
  · exact d2

/-- C15, refuted as stated: after `main` for a frame size of four samples and
the delivery of the frame 1, 1, 1, 1, the capture buffer holds 1, 1, 1, 1.
Whatever `cmp_abs`, `rand`, `rfft` and `g_rad` are, one call of `displayFunc`
returns and turns the capture buffer into 0, 0.75, 0.75, 0, the frame times
the Hanning window: the capture buffer has changed.  A second call without a
new frame returns too and works on these windowed samples: it leaves
0, 0.5625, 0.5625, 0. -/
theorem C15_capture_buffer_is_windowed :
    constantFrameGlobals.buffers.g_buffer = [1, 1, 1, 1] ∧
    ∀ (env : Env) (rfft : List ℚ → Nat → List ℚ) (g_rad : ℚ),
      ∃ t u, displayFuncFull env rfft g_rad constantFrameGlobals = some t ∧
        t.buffers.g_buffer = [0, 0.75, 0.75, 0] ∧
        t.buffers.g_buffer ≠ constantFrameGlobals.buffers.g_buffer ∧
        displayFuncFull env rfft g_rad t = some u ∧
        u.buffers.g_buffer = [0, 0.5625, 0.5625, 0] := by
  have h0 : constantFrameGlobals.buffers.g_buffer = [1, 1, 1, 1] := by decide
  have hw : constantFrameGlobals.buffers.g_window = [0, 0.75, 0.75, 0] := rfl
  have hn : constantFrameGlobals.pipeline.g_windowSize = 4 := rfl
  have hp : WellFormed constantFrameGlobals.pipeline := wellFormed_initState 4
  have e1 : List.zipWith (fun x w => x * w) [1, 1, 1, 1] [(0 : ℚ), 0.75, 0.75, 0] =
      [0, 0.75, 0.75, 0] := by
    norm_num [List.zipWith]
  have e2 : List.zipWith (fun x w => x * w) [(0 : ℚ), 0.75, 0.75, 0] [(0 : ℚ), 0.75, 0.75, 0] =
      [0, 0.5625, 0.5625, 0] := by
    norm_num [List.zipWith]
  refine ⟨h0, ?_⟩
  intro env rfft g_rad
  obtain ⟨t, t1, t2, t3, -, t5, t6⟩ :=
    displayFuncFull_buffer env rfft g_rad constantFrameGlobals (by rw [h0, hn]; rfl)
      (by rw [hw, hn]; rfl) hp
  rw [h0, hw, e1] at t2
  rw [hw] at t3
  rw [hn] at t5
  obtain ⟨u, u1, u2, -, -, -, -⟩ :=
    displayFuncFull_buffer env rfft g_rad t (by rw [t2, t5]; rfl) (by rw [t3, t5]; rfl) t6
  rw [t2, t3, e2] at u2
  refine ⟨t, u, t1, t2, ?_, u1, u2⟩
  rw [t2, h0]
  norm_num

/-- C15, amended: for every content of the capture buffer (the buffers having
the size `main` allocated, the pools their declared size), one per-frame
analysis step, a call of `displayFunc`, returns and windows the capture buffer
in place: afterwards capture buffer sample i is the delivered sample i times
window coefficient i for every i < N, so the samples the waveform consumers
read after the step are the windowed samples; the window coefficients are
unchanged. -/
theorem C15_window_applied_in_place (env : Env) (rfft : List ℚ → Nat → List ℚ)
    (g_rad : ℚ) (g : Globals) (h : BuffersSized g) (hw : WellFormed g.pipeline) :
    ∃ t, displayFuncFull env rfft g_rad g = some t ∧
      t.buffers.g_buffer =
        List.zipWith (fun x w => x * w) g.buffers.g_buffer g.buffers.g_window ∧
      t.buffers.g_buffer.length = g.buffers.g_bufferSize ∧
      (∀ i, i < g.buffers.g_bufferSize → ∃ x w, g.buffers.g_buffer[i]? = some x ∧
        g.buffers.g_window[i]? = some w ∧ t.buffers.g_buffer[i]? = some (x * w)) ∧
      t.buffers.g_window = g.buffers.g_window := by
  obtain ⟨t, t1, t2, t3, -, -, -⟩ := displayFuncFull_buffer env rfft g_rad g
    (by rw [h.buffer, h.windowSize]) (by rw [h.window, h.windowSize]) hw
  refine ⟨t, t1, t2, ?_, ?_, t3⟩
  · rw [t2, List.length_zipWith, h.buffer, h.window, Nat.min_self]
  · intro i hi
    have hb : i < g.buffers.g_buffer.length := by rw [h.buffer]; exact hi
    have hwl : i < g.buffers.g_window.length := by rw [h.window]; exact hi
    refine ⟨g.buffers.g_buffer[i], g.buffers.g_window[i], List.getElem?_eq_getElem hb,
      List.getElem?_eq_getElem hwl, ?_⟩
    rw [t2, List.getElem?_zipWith_eq_some]
    exact ⟨_, _, List.getElem?_eq_getElem hb, List.getElem?_eq_getElem hwl, rfl⟩

/-- C15 (amended) at the globals after `main` for a frame size of four samples
and the delivered frame 1, 1, 1, 1, with an `rfft` that leaves the buffer as
it is. -/
theorem C15_window_applied_in_place_witness :
    BuffersSized constantFrameGlobals ∧ WellFormed constantFrameGlobals.pipeline ∧
      ∃ t, displayFuncFull sampleEnv (fun b _ => b) 1.2 constantFrameGlobals = some t ∧
        t.buffers.g_buffer =
          List.zipWith (fun x w => x * w) constantFrameGlobals.buffers.g_buffer
            constantFrameGlobals.buffers.g_window ∧
        t.buffers.g_buffer.length = constantFrameGlobals.buffers.g_bufferSize ∧
        (∀ i, i < constantFrameGlobals.buffers.g_bufferSize →
          ∃ x w, constantFrameGlobals.buffers.g_buffer[i]? = some x ∧
            constantFrameGlobals.buffers.g_window[i]? = some w ∧
            t.buffers.g_buffer[i]? = some (x * w)) ∧
        t.buffers.g_window = constantFrameGlobals.buffers.g_window :=
  have h : BuffersSized constantFrameGlobals := by
    constructor <;> decide
  ⟨h, wellFormed_initState 4,
    C15_window_applied_in_place sampleEnv (fun b _ => b) 1.2 constantFrameGlobals h
      (wellFormed_initState 4)⟩

/-! ## The history after any number of pushes -/

theorem memcpy_same_length (dst src : List complex) (n : Nat) (hd : dst.length = n)
    (hs : src.length = n) : memcpy dst src n = src := by
  unfold memcpy
  rw [List.take_of_length_le (le_of_eq hs), List.drop_of_length_le (le_of_eq hd),
    List.append_nil]

theorem shiftHistory_getElem? (n : Nat) :
    ∀ (start : Nat) (h : List (List complex)), (∀ e ∈ h, e.length = n) →
      start < h.length →
      ∀ k, (shiftHistory n start h)[k]? =
        if 1 ≤ k ∧ k ≤ start then h[k - 1]? else h[k]? := by
  intro start
  induction start with
  | zero =>
    intro h _ _ k
    have : ¬ (1 ≤ k ∧ k ≤ 0) := by omega
    rw [if_neg this]
    rfl
  | succ i ih =>
    intro h hlen hlt k
    have hi : i < h.length := by omega
    have e1 : h.getD (i + 1) [] = h[i + 1] := by
      rw [List.getD_eq_getElem?_getD, List.getElem?_eq_getElem hlt]; rfl
    have e0 : h.getD i [] = h[i] := by
      rw [List.getD_eq_getElem?_getD, List.getElem?_eq_getElem hi]; rfl
    have hm : memcpy (h.getD (i + 1) []) (h.getD i []) n = h[i] := by
      rw [e1, e0]
      exact memcpy_same_length _ _ n (hlen _ (List.getElem_mem _)) (hlen _ (List.getElem_mem _))
    unfold shiftHistory
    rw [hm]
    have hlen2 : ∀ e ∈ h.set (i + 1) h[i], e.length = n := by
      intro e he
      rcases List.mem_or_eq_of_mem_set he with h1 | h1
      · exact hlen e h1
      · rw [h1]; exact hlen _ (List.getElem_mem _)
    rw [ih (h.set (i + 1) h[i]) hlen2 (by rw [List.length_set]; exact hi) k]
    by_cases hk1 : 1 ≤ k ∧ k ≤ i
    · have hk2 : 1 ≤ k ∧ k ≤ i + 1 := by omega
      rw [if_pos hk1, if_pos hk2, List.getElem?_set_ne (by omega)]
    · rw [if_neg hk1]
      by_cases hk3 : k = i + 1
      · have hk2 : 1 ≤ k ∧ k ≤ i + 1 := by omega
        rw [if_pos hk2, hk3, List.getElem?_set_self hlt, Nat.add_sub_cancel,
          List.getElem?_eq_getElem hi]
      · have hk2 : ¬ (1 ≤ k ∧ k ≤ i + 1) := by omega
        rw [if_neg hk2, List.getElem?_set_ne (fun h => hk3 h.symm)]

theorem storedSpectrum_length (n : Nat) (c : Nat → complex) :
    (storedSpectrum n c).length = n := by
  simp [storedSpectrum]

theorem zeroSpectrum_length (n : Nat) : (zeroSpectrum n).length = n := by
  simp [zeroSpectrum]

theorem historyEntry_length (n : Nat) (cs : List (Nat → complex)) (k : Nat) :
    (historyEntry n cs k).length = n := by
  unfold historyEntry
  split
  · split
    · exact storedSpectrum_length n _
    · exact zeroSpectrum_length n
  · exact zeroSpectrum_length n

theorem historyEntry_zero (n : Nat) (cs : List (Nat → complex)) (c : Nat → complex) :
    historyEntry n (cs ++ [c]) 0 = storedSpectrum n c := by
  simp [historyEntry]

theorem historyEntry_succ (n : Nat) (cs : List (Nat → complex)) (c : Nat → complex)
    (k : Nat) (hk : 1 ≤ k) :
    historyEntry n (cs ++ [c]) k =
      if k ≤ min cs.length 61 - 1 ∧ k ≤ 60 then historyEntry n cs (k - 1)
      else if k ≤ 60 then historyEntry n cs k
      else historyEntry n (cs ++ [c]) k := by
  obtain ⟨j, rfl⟩ : ∃ j, k = j + 1 := ⟨k - 1, by omega⟩
  by_cases h60 : j + 1 ≤ 60
  · by_cases hm : j + 2 ≤ cs.length
    · have c1 : j + 1 ≤ min cs.length 61 - 1 ∧ j + 1 ≤ 60 := by omega
      have c2 : j + 1 = 0 ∨ j + 1 + 2 ≤ (cs ++ [c]).length := by
        rw [List.length_append, List.length_singleton]; omega
      have c3 : j = 0 ∨ j + 2 ≤ cs.length := Or.inr hm
      rw [if_pos c1]
      simp only [historyEntry, if_pos c2, Nat.add_sub_cancel, if_pos c3,
        List.reverse_append, List.reverse_singleton, List.singleton_append,
        List.getElem?_cons_succ]
    · have c1 : ¬ (j + 1 ≤ min cs.length 61 - 1 ∧ j + 1 ≤ 60) := by omega
      have c2 : ¬ (j + 1 = 0 ∨ j + 1 + 2 ≤ (cs ++ [c]).length) := by
        rw [List.length_append, List.length_singleton]; omega
      have c3 : ¬ (j + 1 = 0 ∨ j + 1 + 2 ≤ cs.length) := by omega
      rw [if_neg c1, if_pos h60]
      simp only [historyEntry, if_neg c2, if_neg c3]
  · have c1 : ¬ (j + 1 ≤ min cs.length 61 - 1 ∧ j + 1 ≤ 60) := by omega
    rw [if_neg c1, if_neg h60]

theorem range_map_getElem? (f : Nat → List complex) (n k : Nat) :
    ((List.range n).map f)[k]? = if k < n then some (f k) else none := by
  rw [List.getElem?_map]
  by_cases hk : k < n
  · rw [if_pos hk, List.getElem?_range hk]; rfl
  · rw [if_neg hk, List.getElem?_eq_none (by rw [List.length_range]; omega)]; rfl

theorem saveHistory_closed_form (c : Nat → complex) (s : State)
    (cs : List (Nat → complex))
    (hh : s.g_FDBufHistory = (List.range 61).map (historyEntry (s.g_windowSize / 2) cs))
    (hn : s.g_nHistoryStates = min cs.length 61) :
    (saveHistory c s).g_FDBufHistory =
      (List.range 61).map (historyEntry (s.g_windowSize / 2) (cs ++ [c])) := by
  have hlen : ∀ e ∈ s.g_FDBufHistory, e.length = s.g_windowSize / 2 := by
    intro e he
    rw [hh, List.mem_map] at he
    obtain ⟨k, -, rfl⟩ := he
    exact historyEntry_length _ _ _
  have hl61 : s.g_FDBufHistory.length = 61 := by
    rw [hh, List.length_map, List.length_range]
  have hstart : s.g_nHistoryStates - 1 < s.g_FDBufHistory.length := by
    rw [hl61, hn]; omega
  have hshift := shiftHistory_getElem? (s.g_windowSize / 2) (s.g_nHistoryStates - 1)
    s.g_FDBufHistory hlen hstart
  have hsl : (shiftHistory (s.g_windowSize / 2) (s.g_nHistoryStates - 1)
      s.g_FDBufHistory).length = 61 := by
    rw [shiftHistory_length, hl61]
  have h0 : (shiftHistory (s.g_windowSize / 2) (s.g_nHistoryStates - 1)
      s.g_FDBufHistory).getD 0 [] = historyEntry (s.g_windowSize / 2) cs 0 := by
    rw [List.getD_eq_getElem?_getD, hshift 0, if_neg (by omega), hh, range_map_getElem?,
      if_pos (by omega)]
    rfl
  have hnew : memcpy ((shiftHistory (s.g_windowSize / 2) (s.g_nHistoryStates - 1)
        s.g_FDBufHistory).getD 0 [])
      ((List.range (s.g_windowSize / 2)).map c) (s.g_windowSize / 2) =
      storedSpectrum (s.g_windowSize / 2) c := by
    rw [h0]
    exact memcpy_same_length _ _ _ (historyEntry_length _ _ _) (storedSpectrum_length _ c)
  apply List.ext_getElem?
  intro k
  show ((shiftHistory (s.g_windowSize / 2) (s.g_nHistoryStates - 1) s.g_FDBufHistory).set 0
    (memcpy ((shiftHistory (s.g_windowSize / 2) (s.g_nHistoryStates - 1)
        s.g_FDBufHistory).getD 0 [])
      ((List.range (s.g_windowSize / 2)).map c) (s.g_windowSize / 2)))[k]? = _
  rw [hnew, range_map_getElem?]
  by_cases hk0 : k = 0
  · subst hk0
    rw [List.getElem?_set_self (by rw [hsl]; omega), if_pos (by omega), historyEntry_zero]
  · have hk1 : 1 ≤ k := by omega
    rw [List.getElem?_set_ne (fun h => hk0 h.symm), hshift k, hh]
    by_cases hk : k < 61
    · rw [if_pos hk, historyEntry_succ _ cs c k hk1]
      by_cases hc : k ≤ s.g_nHistoryStates - 1
      · have c1 : 1 ≤ k ∧ k ≤ s.g_nHistoryStates - 1 := ⟨hk1, hc⟩
        have c2 : k ≤ min cs.length 61 - 1 ∧ k ≤ 60 := by rw [← hn]; omega
        rw [if_pos c1, if_pos c2, range_map_getElem?, if_pos (by omega)]
      · have c1 : ¬ (1 ≤ k ∧ k ≤ s.g_nHistoryStates - 1) := fun h => hc h.2
        have c2 : ¬ (k ≤ min cs.length 61 - 1 ∧ k ≤ 60) := by rw [← hn]; omega
        rw [if_neg c1, if_neg c2, if_pos (by omega), range_map_getElem?, if_pos hk]
    · rw [if_neg hk]
      split
      · rw [range_map_getElem?, if_neg (by omega)]
      · rw [range_map_getElem?, if_neg hk]

theorem pushAll_closed_form (bufferFrames : Nat) (cs : List (Nat → complex)) :
    (pushAll (initState bufferFrames) cs).g_FDBufHistory =
      (List.range 61).map (historyEntry (bufferFrames / 2) cs) := by
  induction cs using List.reverseRecOn with
  | nil =>
    apply List.ext_getElem?
    intro k
    rw [range_map_getElem?]
    show (List.replicate MAX_STATES (List.replicate (bufferFrames / 2)
      ({ re := 0, im := 0 } : complex)))[k]? = _
    rw [List.getElem?_replicate]
    simp [MAX_STATES, historyEntry, zeroSpectrum]
  | append_singleton cs c ih =>
    rw [pushAll_concat]
    have hw := pushAll_windowSize cs (initState bufferFrames)
    have hw0 : (initState bufferFrames).g_windowSize = bufferFrames := rfl
    rw [hw0] at hw
    have hn := pushAll_nHistoryStates cs (initState bufferFrames) (Nat.zero_le _)
    have hn0 : (initState bufferFrames).g_nHistoryStates = 0 := rfl
    rw [hn0, Nat.zero_add] at hn
    have := saveHistory_closed_form c (pushAll (initState bufferFrames) cs) cs
      (by rw [hw]; exact ih) hn
    rw [hw] at this
    exact this

theorem pushAll_getElem?_valid (bufferFrames : Nat) (cs : List (Nat → complex)) (k : Nat)
    (hk : k < 61) (hv : k < cs.length ∧ (k = 0 ∨ k + 2 ≤ cs.length)) :
    (pushAll (initState bufferFrames) cs).g_FDBufHistory[k]? =
      (cs[cs.length - 1 - k]?).map (storedSpectrum (bufferFrames / 2)) := by
  rw [pushAll_closed_form, range_map_getElem?, if_pos hk]
  have hidx : cs.length - 1 - k < cs.length := by omega
  simp only [historyEntry, if_pos hv.2, List.getElem?_reverse hv.1,
    List.getElem?_eq_getElem hidx, Option.map_some']

theorem pushAll_getElem?_stale (bufferFrames : Nat) (cs : List (Nat → complex)) (k : Nat)
    (hk : k < 61) (hv : ¬ (k = 0 ∨ k + 2 ≤ cs.length)) :
    (pushAll (initState bufferFrames) cs).g_FDBufHistory[k]? =
      some (zeroSpectrum (bufferFrames / 2)) := by
  rw [pushAll_closed_form, range_map_getElem?, if_pos hk]
  simp only [historyEntry, if_neg hv]

theorem storedSpectrum_constant_ne (n i j : Nat) (hn : 0 < n) (hij : i ≠ j) :
    storedSpectrum n (constantSpectrum i) ≠ storedSpectrum n (constantSpectrum j) := by
  intro h
  have h0 : (storedSpectrum n (constantSpectrum i))[0]? =
      (storedSpectrum n (constantSpectrum j))[0]? := by rw [h]
  simp only [storedSpectrum, List.getElem?_map, List.getElem?_range hn, Option.map_some',
    constantSpectrum, Option.some.injEq, complex.mk.injEq, and_true] at h0
  have : (i : ℚ) = (j : ℚ) := by linarith
  exact hij (by exact_mod_cast this)

theorem zeroSpectrum_ne_constant (n i : Nat) (hn : 0 < n) :
    zeroSpectrum n ≠ storedSpectrum n (constantSpectrum i) := by
  intro h
  have h0 : (zeroSpectrum n)[0]? = (storedSpectrum n (constantSpectrum i))[0]? := by rw [h]
  simp only [zeroSpectrum, storedSpectrum, List.getElem?_map, List.getElem?_range hn,
    List.getElem?_replicate_of_lt hn, Option.map_some', constantSpectrum,
    Option.some.injEq, complex.mk.injEq, and_true] at h0
  have hpos : (0 : ℚ) ≤ (i : ℚ) := Nat.cast_nonneg i
  linarith

/-! ## C11: what a push moves -/

theorem saveHistory_moves_inner (bufferFrames : Nat) (cs : List (Nat → complex))
    (c : Nat → complex) (i : Nat) (hi : i + 1 < min cs.length 61) :
    (saveHistory c (pushAll (initState bufferFrames) cs)).g_FDBufHistory[i + 1]? =
      (pushAll (initState bufferFrames) cs).g_FDBufHistory[i]? := by
  rw [← pushAll_concat, pushAll_closed_form, pushAll_closed_form, range_map_getElem?,
    range_map_getElem?, if_pos (by omega), if_pos (by omega),
    historyEntry_succ _ cs c (i + 1) (by omega), if_pos (by omega), Nat.add_sub_cancel]

/-- C11, the code at the failing input: after one push of a spectrum with
bins (1, 0) into the fresh history for N = 1024 the logical length is 1 and
index 0 holds that spectrum; a second push stores the new spectrum at index 0
and leaves index 1 as `main` zeroed it, so the entry that was at index 0 has
not moved to index 1: it is lost. -/
theorem C11_first_entry_lost :
    (pushAll (initState 1024) [constantSpectrum 0]).g_nHistoryStates = 1 ∧
      (pushAll (initState 1024) [constantSpectrum 0]).g_FDBufHistory[0]? =
        some (storedSpectrum 512 (constantSpectrum 0)) ∧
      (saveHistory (constantSpectrum 1)
          (pushAll (initState 1024) [constantSpectrum 0])).g_FDBufHistory[0]? =
        some (storedSpectrum 512 (constantSpectrum 1)) ∧
      (saveHistory (constantSpectrum 1)
          (pushAll (initState 1024) [constantSpectrum 0])).g_FDBufHistory[1]? =
        some (zeroSpectrum 512) ∧
      zeroSpectrum 512 ≠ storedSpectrum 512 (constantSpectrum 0) := by
  have e1 := pushAll_getElem?_valid 1024 [constantSpectrum 0] 0 (by omega)
    ⟨Nat.succ_pos _, Or.inl rfl⟩
  have e2 := pushAll_getElem?_valid 1024 ([constantSpectrum 0] ++ [constantSpectrum 1]) 0
    (by omega) ⟨Nat.succ_pos _, Or.inl rfl⟩
  have e3 := pushAll_getElem?_stale 1024 ([constantSpectrum 0] ++ [constantSpectrum 1]) 1
    (by omega) (by simp)
  rw [pushAll_concat] at e2 e3
  exact ⟨rfl, e1, e2, e3, zeroSpectrum_ne_constant 512 0 (by omega)⟩

/-! ## C12: sixty-two pushes -/

/-- C12, refuted as stated: after the 62 pairwise distinct spectra with bins
(1, 0), (2, 0), ..., (62, 0) were pushed into the fresh history for N = 1024,
index 60 holds the 2nd pushed spectrum, which is not the 61st pushed one. -/
theorem C12_index_sixty_holds_second :
    (pushAll (initState 1024) ((List.range 62).map constantSpectrum)).g_FDBufHistory[60]? =
        some (storedSpectrum 512 (constantSpectrum 1)) ∧
      ((List.range 62).map constantSpectrum)[1]? = some (constantSpectrum 1) ∧
      ((List.range 62).map constantSpectrum)[60]? = some (constantSpectrum 60) ∧
      storedSpectrum 512 (constantSpectrum 1) ≠ storedSpectrum 512 (constantSpectrum 60) := by
  have hl : ((List.range 62).map constantSpectrum).length = 62 := by
    rw [List.length_map, List.length_range]
  have e := pushAll_getElem?_valid 1024 ((List.range 62).map constantSpectrum) 60
    (by omega) ⟨by rw [hl]; omega, Or.inr (by rw [hl])⟩
  have h1 : ((List.range 62).map constantSpectrum)[1]? = some (constantSpectrum 1) := by
    rw [List.getElem?_map, List.getElem?_range (by omega)]; rfl
  have h60 : ((List.range 62).map constantSpectrum)[60]? = some (constantSpectrum 60) := by
    rw [List.getElem?_map, List.getElem?_range (by omega)]; rfl
  rw [hl, h1] at e
  exact ⟨e, h1, h60, storedSpectrum_constant_ne 512 1 60 (by omega) (by omega)⟩

/-- C12, amended: pushing 61 spectra into a fresh history (H = 61) and then a
62nd, all 62 pairwise distinct in their N/2 bins, leaves the logical length at
61, index 0 equal to the 62nd pushed spectrum, index 60 equal to the 2nd
pushed spectrum, and the 1st pushed spectrum at no index. -/
theorem C12_sixty_two_pushes (bufferFrames : Nat) (cs : List (Nat → complex))
    (c : Nat → complex) (hlen : cs.length = 61)
    (hd : ((cs ++ [c]).map (storedSpectrum (bufferFrames / 2))).Nodup) :
    (pushAll (initState bufferFrames) cs).g_nHistoryStates = 61 ∧
      (pushAll (initState bufferFrames) (cs ++ [c])).g_nHistoryStates = 61 ∧
      (pushAll (initState bufferFrames) (cs ++ [c])).g_FDBufHistory[0]? =
        some (storedSpectrum (bufferFrames / 2) c) ∧
      (pushAll (initState bufferFrames) (cs ++ [c])).g_FDBufHistory[60]? =
        (cs[1]?).map (storedSpectrum (bufferFrames / 2)) ∧
      ∀ k : Nat, (pushAll (initState bufferFrames) (cs ++ [c])).g_FDBufHistory[k]? ≠
        (cs[0]?).map (storedSpectrum (bufferFrames / 2)) := by
  have hl : (cs ++ [c]).length = 62 := by
    rw [List.length_append, List.length_singleton, hlen]
  have hn1 := pushAll_nHistoryStates cs (initState bufferFrames) (Nat.zero_le _)
  have hn2 := pushAll_nHistoryStates (cs ++ [c]) (initState bufferFrames) (Nat.zero_le _)
  have hn0 : (initState bufferFrames).g_nHistoryStates = 0 := rfl
  rw [hn0, Nat.zero_add, hlen] at hn1
  rw [hn0, Nat.zero_add, hl] at hn2
  have hvalid : ∀ k, k < 61 →
      (pushAll (initState bufferFrames) (cs ++ [c])).g_FDBufHistory[k]? =
        ((cs ++ [c])[61 - k]?).map (storedSpectrum (bufferFrames / 2)) := by
    intro k hk
    have := pushAll_getElem?_valid bufferFrames (cs ++ [c]) k hk
      ⟨by rw [hl]; omega, Or.inr (by rw [hl]; omega)⟩
    rw [hl] at this
    exact this
  have hleft : ∀ j, j < 61 → (cs ++ [c])[j]? = cs[j]? := by
    intro j hj
    exact List.getElem?_append_left (by rw [hlen]; exact hj)
  refine ⟨hn1, hn2, ?_, ?_, ?_⟩
  · rw [hvalid 0 (by omega)]
    have : (cs ++ [c])[61 - 0]? = some c := by
      rw [Nat.sub_zero, List.getElem?_append_right (by rw [hlen]), hlen]
      rfl
    rw [this]
    rfl
  · rw [hvalid 60 (by omega), hleft 1 (by omega)]
  · intro k
    by_cases hk : k < 61
    · rw [hvalid k hk, ← hleft 0 (by omega), ← List.getElem?_map, ← List.getElem?_map]
      have hne := List.nodup_iff_getElem?_ne_getElem?.mp hd 0 (61 - k) (by omega)
        (by rw [List.length_map, hl]; omega)
      exact fun h => hne h.symm
    · have hnone : (pushAll (initState bufferFrames) (cs ++ [c])).g_FDBufHistory[k]? = none := by
        rw [pushAll_closed_form, range_map_getElem?, if_neg hk]
      have h0 : 0 < cs.length := by omega
      rw [hnone, List.getElem?_eq_getElem h0]
      simp

theorem constantSpectra_nodup (n m : Nat) (hn : 0 < n) :
    (((List.range m).map constantSpectrum).map (storedSpectrum n)).Nodup := by
  rw [List.map_map]
  apply List.Nodup.map_on _ (List.nodup_range m)
  intro x _ y _ hxy
  by_contra hne
  exact storedSpectrum_constant_ne n x y hn hne hxy

/-- C12 (amended) at the spectra with bins (1, 0), ..., (62, 0) and N = 1024. -/
theorem C12_sixty_two_pushes_witness :
    ((List.range 61).map constantSpectrum).length = 61 ∧
      ((((List.range 61).map constantSpectrum) ++ [constantSpectrum 61]).map
        (storedSpectrum (1024 / 2))).Nodup ∧
      (pushAll (initState 1024)
          (((List.range 61).map constantSpectrum) ++ [constantSpectrum 61])).g_nHistoryStates
        = 61 ∧
      (pushAll (initState 1024)
          (((List.range 61).map constantSpectrum) ++ [constantSpectrum 61])).g_FDBufHistory[60]?
        = (((List.range 61).map constantSpectrum)[1]?).map (storedSpectrum (1024 / 2)) :=
  have h1 : ((List.range 61).map constantSpectrum).length = 61 := by
    rw [List.length_map, List.length_range]
  have h2 : ((((List.range 61).map constantSpectrum) ++ [constantSpectrum 61]).map
      (storedSpectrum (1024 / 2))).Nodup := by
    have h := constantSpectra_nodup (1024 / 2) 62 (by decide)
    rw [List.range_succ, List.map_append] at h
    exact h
  ⟨h1, h2,
    (C12_sixty_two_pushes 1024 ((List.range 61).map constantSpectrum) (constantSpectrum 61)
      h1 h2).2.1,
    (C12_sixty_two_pushes 1024 ((List.range 61).map constantSpectrum) (constantSpectrum 61)
      h1 h2).2.2.2.1⟩

end Visualizer
